import Mathlib

/-! The SDL plugin of libuncursed (`libuncursed/src/plugins/sdl.c`).

A shallow embedding of the plugin's window-size reconciliation, key-wait
loop, key translation, timed delay and full redraw, followed by theorems
about them.

Conventions of the embedding.

* The C file keeps its state in static variables and talks to two outside
  parties, the SDL library and the host library.  `World` holds the static
  variables, the part of SDL's state the code reads back (the window's pixel
  size, the queue of events still to be delivered, the number of clock reads
  made so far) and the list `calls` of every request sent to SDL or to the
  host, in the order they were made.
* Pixel sizes, grid sizes, flags and timeouts are C `int`s, modelled by `Int`;
  `/` on them is C's truncating division, `Int.tdiv`.
* Key symbols (`SDL_Keycode`), modifier masks (`Uint16`) and key codes are
  non-negative in the source, and are modelled by `Nat`.  The complement `~x`
  of a 32-bit `int` is the mask `0xFFFFFFFF - x`.
* `SDL_GetTicks` returns a `Uint32`; sums with an `int` are taken modulo
  `2 ^ 32` and then widened to `long` (64 bits, as on Linux).
* The constants of the host header `uncursed.h` (`KEY_BIAS`, `KEY_ALT`, ...)
  are not part of the file; they are the fields of the parameter `Keys`.
-/

namespace Uncursed.SDL

/-! ## Constants of the host header, taken as parameters -/

/-- The `KEY_...` constants of `uncursed.h` that `sdl.c` mentions. -/
structure Keys where
  KEY_BIAS : Nat
  KEY_ALT : Nat
  KEY_CTRL : Nat
  KEY_SHIFT : Nat
  KEY_HANGUP : Nat
  KEY_RESIZE : Nat
  KEY_SILENCE : Nat
  KEY_LAST_FUNCTION : Nat
  KEY_F1 : Nat
  KEY_F2 : Nat
  KEY_F3 : Nat
  KEY_F4 : Nat
  KEY_F5 : Nat
  KEY_F6 : Nat
  KEY_F7 : Nat
  KEY_F8 : Nat
  KEY_F9 : Nat
  KEY_F10 : Nat
  KEY_F11 : Nat
  KEY_F12 : Nat
  KEY_F13 : Nat
  KEY_F14 : Nat
  KEY_F15 : Nat
  KEY_F16 : Nat
  KEY_F17 : Nat
  KEY_F18 : Nat
  KEY_F19 : Nat
  KEY_F20 : Nat
  KEY_ESCAPE : Nat
  KEY_BACKSPACE : Nat
  KEY_PRINT : Nat
  KEY_BREAK : Nat
  KEY_HOME : Nat
  KEY_END : Nat
  KEY_IC : Nat
  KEY_DC : Nat
  KEY_PPAGE : Nat
  KEY_NPAGE : Nat
  KEY_RIGHT : Nat
  KEY_LEFT : Nat
  KEY_UP : Nat
  KEY_DOWN : Nat
  KEY_NUMDIVIDE : Nat
  KEY_NUMTIMES : Nat
  KEY_NUMMINUS : Nat
  KEY_NUMPLUS : Nat
  KEY_ENTER : Nat
  KEY_C1 : Nat
  KEY_C2 : Nat
  KEY_C3 : Nat
  KEY_B1 : Nat
  KEY_B2 : Nat
  KEY_B3 : Nat
  KEY_A1 : Nat
  KEY_A2 : Nat
  KEY_A3 : Nat
  KEY_D1 : Nat
  KEY_D3 : Nat
  deriving DecidableEq, Repr

/-! ## Constants of SDL2 (`SDL_keycode.h`, `SDL_scancode.h`, `SDL_video.h`) -/

def SDLK_SCANCODE_MASK : Nat := 0x40000000

/-- The macro `SDL_SCANCODE_TO_KEYCODE`: the scancode with bit 30 set. -/
def SDL_SCANCODE_TO_KEYCODE (x : Nat) : Nat := x ||| SDLK_SCANCODE_MASK

def SDLK_RETURN : Nat := 13
def SDLK_TAB : Nat := 9
def SDLK_ESCAPE : Nat := 27
def SDLK_BACKSPACE : Nat := 8
def SDLK_DELETE : Nat := 127
def SDLK_CAPSLOCK : Nat := SDL_SCANCODE_TO_KEYCODE 57
def SDLK_F1 : Nat := SDL_SCANCODE_TO_KEYCODE 58
def SDLK_F2 : Nat := SDL_SCANCODE_TO_KEYCODE 59
def SDLK_F3 : Nat := SDL_SCANCODE_TO_KEYCODE 60
def SDLK_F4 : Nat := SDL_SCANCODE_TO_KEYCODE 61
def SDLK_F5 : Nat := SDL_SCANCODE_TO_KEYCODE 62
def SDLK_F6 : Nat := SDL_SCANCODE_TO_KEYCODE 63
def SDLK_F7 : Nat := SDL_SCANCODE_TO_KEYCODE 64
def SDLK_F8 : Nat := SDL_SCANCODE_TO_KEYCODE 65
def SDLK_F9 : Nat := SDL_SCANCODE_TO_KEYCODE 66
def SDLK_F10 : Nat := SDL_SCANCODE_TO_KEYCODE 67
def SDLK_F11 : Nat := SDL_SCANCODE_TO_KEYCODE 68
def SDLK_F12 : Nat := SDL_SCANCODE_TO_KEYCODE 69
def SDLK_PRINTSCREEN : Nat := SDL_SCANCODE_TO_KEYCODE 70
def SDLK_SCROLLLOCK : Nat := SDL_SCANCODE_TO_KEYCODE 71
def SDLK_PAUSE : Nat := SDL_SCANCODE_TO_KEYCODE 72
def SDLK_INSERT : Nat := SDL_SCANCODE_TO_KEYCODE 73
def SDLK_HOME : Nat := SDL_SCANCODE_TO_KEYCODE 74
def SDLK_PAGEUP : Nat := SDL_SCANCODE_TO_KEYCODE 75
def SDLK_END : Nat := SDL_SCANCODE_TO_KEYCODE 77
def SDLK_PAGEDOWN : Nat := SDL_SCANCODE_TO_KEYCODE 78
def SDLK_RIGHT : Nat := SDL_SCANCODE_TO_KEYCODE 79
def SDLK_LEFT : Nat := SDL_SCANCODE_TO_KEYCODE 80
def SDLK_DOWN : Nat := SDL_SCANCODE_TO_KEYCODE 81
def SDLK_UP : Nat := SDL_SCANCODE_TO_KEYCODE 82
def SDLK_NUMLOCKCLEAR : Nat := SDL_SCANCODE_TO_KEYCODE 83
def SDLK_KP_DIVIDE : Nat := SDL_SCANCODE_TO_KEYCODE 84
def SDLK_KP_MULTIPLY : Nat := SDL_SCANCODE_TO_KEYCODE 85
def SDLK_KP_MINUS : Nat := SDL_SCANCODE_TO_KEYCODE 86
def SDLK_KP_PLUS : Nat := SDL_SCANCODE_TO_KEYCODE 87
def SDLK_KP_ENTER : Nat := SDL_SCANCODE_TO_KEYCODE 88
def SDLK_KP_1 : Nat := SDL_SCANCODE_TO_KEYCODE 89
def SDLK_KP_2 : Nat := SDL_SCANCODE_TO_KEYCODE 90
def SDLK_KP_3 : Nat := SDL_SCANCODE_TO_KEYCODE 91
def SDLK_KP_4 : Nat := SDL_SCANCODE_TO_KEYCODE 92
def SDLK_KP_5 : Nat := SDL_SCANCODE_TO_KEYCODE 93
def SDLK_KP_6 : Nat := SDL_SCANCODE_TO_KEYCODE 94
def SDLK_KP_7 : Nat := SDL_SCANCODE_TO_KEYCODE 95
def SDLK_KP_8 : Nat := SDL_SCANCODE_TO_KEYCODE 96
def SDLK_KP_9 : Nat := SDL_SCANCODE_TO_KEYCODE 97
def SDLK_KP_0 : Nat := SDL_SCANCODE_TO_KEYCODE 98
def SDLK_KP_PERIOD : Nat := SDL_SCANCODE_TO_KEYCODE 99
def SDLK_F13 : Nat := SDL_SCANCODE_TO_KEYCODE 104
def SDLK_F14 : Nat := SDL_SCANCODE_TO_KEYCODE 105
def SDLK_F15 : Nat := SDL_SCANCODE_TO_KEYCODE 106
def SDLK_F16 : Nat := SDL_SCANCODE_TO_KEYCODE 107
def SDLK_F17 : Nat := SDL_SCANCODE_TO_KEYCODE 108
def SDLK_F18 : Nat := SDL_SCANCODE_TO_KEYCODE 109
def SDLK_F19 : Nat := SDL_SCANCODE_TO_KEYCODE 110
def SDLK_F20 : Nat := SDL_SCANCODE_TO_KEYCODE 111
def SDLK_LCTRL : Nat := SDL_SCANCODE_TO_KEYCODE 224
def SDLK_LSHIFT : Nat := SDL_SCANCODE_TO_KEYCODE 225
def SDLK_LALT : Nat := SDL_SCANCODE_TO_KEYCODE 226
def SDLK_LGUI : Nat := SDL_SCANCODE_TO_KEYCODE 227
def SDLK_RCTRL : Nat := SDL_SCANCODE_TO_KEYCODE 228
def SDLK_RSHIFT : Nat := SDL_SCANCODE_TO_KEYCODE 229
def SDLK_RALT : Nat := SDL_SCANCODE_TO_KEYCODE 230
def SDLK_RGUI : Nat := SDL_SCANCODE_TO_KEYCODE 231
def SDLK_MODE : Nat := SDL_SCANCODE_TO_KEYCODE 257

/-- Either shift key: `KMOD_LSHIFT | KMOD_RSHIFT`. -/
def KMOD_SHIFT : Nat := 0x0003
/-- Either control key: `KMOD_LCTRL | KMOD_RCTRL`. -/
def KMOD_CTRL : Nat := 0x00C0
/-- Either alt key: `KMOD_LALT | KMOD_RALT`. -/
def KMOD_ALT : Nat := 0x0300

def SDL_WINDOWEVENT_EXPOSED : Nat := 3
def SDL_WINDOWEVENT_RESIZED : Nat := 5
def SDL_WINDOWEVENT_SIZE_CHANGED : Nat := 6
def SDL_WINDOWEVENT_CLOSE : Nat := 14

/-! ## The data model -/

/-- An `SDL_Event`, as far as the plugin looks at it: the event type and the
fields read from it.  `other` stands for every event type the `switch` has no
case for. -/
inductive SDL_Event where
  | SDL_WINDOWEVENT (event : Nat) (data1 data2 : Int)
  | SDL_KEYDOWN (sym : Nat) (mod : Nat)
  | SDL_QUIT
  | other
  deriving DecidableEq, Repr

/-- A request sent to SDL or to the host library. -/
inductive Call where
  | SDL_SetWindowSize (w h : Int)
  | SDL_RenderSetLogicalSize (w h : Int)
  | SDL_SetWindowMinimumSize (w h : Int)
  | SDL_SetRenderDrawColor (r g b a : Nat)
  | SDL_RenderFillRect (x y w h : Int)
  | atexit_exit_handler
  | uncursed_rhook_setsize (h w : Int)
  | uncursed_rhook_updated (y x : Int)
  deriving DecidableEq, Repr

/-- The static variables of `sdl.c` together with the state of SDL that the
code reads back. -/
structure World where
  /-- Width of the window, in units of `fontwidth`. -/
  winwidth : Int
  /-- Height of the window, in units of `fontheight`. -/
  winheight : Int
  resize_queued : Int
  suppress_resize : Int
  hangup_mode : Int
  /-- Whether `win` is a window (not `NULL`). -/
  win : Bool
  /-- Whether `render` is a renderer (not `NULL`). -/
  render : Bool
  /-- Pixel width of the window, what `SDL_GetWindowSize` reports. -/
  pixw : Int
  /-- Pixel height of the window, what `SDL_GetWindowSize` reports. -/
  pixh : Int
  /-- The outcomes of the event waits still to come, the next one first:
  `some e` delivers the event `e`, `none` is a wait that returns `0`
  (a timeout). -/
  events : List (Option SDL_Event)
  /-- How many times `SDL_GetTicks` has been called. -/
  nticks : Nat
  /-- Every request made so far, the oldest first. -/
  calls : List Call
  deriving DecidableEq, Repr

/-- What the code reads from outside without changing it: the clock and the
host's cell buffer. -/
structure Env where
  /-- The value of the millisecond clock at its `n`-th reading. -/
  ticks : Nat → Nat
  /-- The host's `uncursed_rhook_cp437_at`. -/
  cp437_at : Int → Int → Int
  /-- The host's `uncursed_rhook_color_at`: a packed, non-negative attribute. -/
  color_at : Int → Int → Nat

/-- The static initialisers of the file, before any window exists. -/
def World.initial : World :=
  { winwidth := 120, winheight := 30, resize_queued := 0, suppress_resize := 0,
    hangup_mode := 0, win := false, render := false, pixw := 0, pixh := 0,
    events := [], nticks := 0, calls := [] }

def fontwidth : Int := 8
def fontheight : Int := 14
def MINCHARWIDTH : Int := 80
def MINCHARHEIGHT : Int := 24

/-! ## The SDL requests -/

/-- The window takes the requested pixel size. -/
def SDL_SetWindowSize (w h : Int) (s : World) : World :=
  { s with pixw := w, pixh := h, calls := s.calls ++ [Call.SDL_SetWindowSize w h] }

def SDL_RenderSetLogicalSize (w h : Int) (s : World) : World :=
  { s with calls := s.calls ++ [Call.SDL_RenderSetLogicalSize w h] }

/-- SDL records the minimum and makes sure the window is not below it: a
window narrower or lower than the new minimum is raised to it in that
dimension, as by `SDL_SetWindowSize (max w min_w) (max h min_h)` inside SDL. -/
def SDL_SetWindowMinimumSize (w h : Int) (s : World) : World :=
  { s with pixw := max s.pixw w, pixh := max s.pixh h,
           calls := s.calls ++ [Call.SDL_SetWindowMinimumSize w h] }

/-- The clock reading number `s.nticks`, a `Uint32`. -/
def SDL_GetTicks (E : Env) (s : World) : Nat × World :=
  (E.ticks s.nticks % 2 ^ 32, { s with nticks := s.nticks + 1 })

/-! ## Window-size reconciliation -/

/-- The function `update_window_sizes`, lines 56-74. -/
def update_window_sizes (s : World) : World :=
  let worig := s.pixw
  let horig := s.pixh
  let w := Int.tdiv worig fontwidth
  let h := Int.tdiv horig fontheight
  let w := if w < MINCHARWIDTH then MINCHARWIDTH else w
  let h := if h < MINCHARHEIGHT then MINCHARHEIGHT else h
  let s1 :=
    if w ≠ worig ∨ h ≠ horig then
      SDL_RenderSetLogicalSize (w * fontwidth) (h * fontheight)
        (SDL_SetWindowSize (w * fontwidth) (h * fontheight) s)
    else s
  let s2 :=
    SDL_SetWindowMinimumSize (MINCHARWIDTH * fontwidth) (MINCHARHEIGHT * fontheight) s1
  let s3 :=
    if w ≠ s2.winwidth ∨ h ≠ s2.winheight then { s2 with resize_queued := 1 } else s2
  { s3 with winwidth := w, winheight := h }

/-- Whether each of SDL's three fallible start-up requests succeeds. -/
structure Startup where
  SDL_Init_ok : Bool
  SDL_CreateWindow_ok : Bool
  SDL_CreateRenderer_ok : Bool
  deriving DecidableEq, Repr

/-- The function `sdl_hook_init`, lines 83-112.  The arguments `h` and `w` are
the values behind the two pointers on entry, the result holds the values behind
them on return; `none` is `exit(EXIT_FAILURE)`. -/
def sdl_hook_init (o : Startup) (h w : Int) (s : World) : Option (Int × Int × World) :=
  if !s.win then
    if !o.SDL_Init_ok then none
    else
      let s1 : World :=
        { s with win := o.SDL_CreateWindow_ok,
                 pixw := fontwidth * s.winwidth, pixh := fontheight * s.winheight }
      if !s1.win then none
      else
        let s2 : World := { s1 with calls := s1.calls ++ [Call.atexit_exit_handler] }
        let s3 := update_window_sizes s2
        let s4 : World := { s3 with resize_queued := 0 }
        let w := s4.winwidth
        let h := s4.winheight
        let s5 : World := { s4 with render := o.SDL_CreateRenderer_ok }
        if !s5.render then none else some (h, w, s5)
  else some (h, w, s)

/-! ## Key translation -/

/-- Whether `sym` is one of the twelve modifier keys that the `switch` leaves
without a code (lines 211-216). -/
def is_modifier_key (sym : Nat) : Prop :=
  sym = SDLK_CAPSLOCK ∨ sym = SDLK_SCROLLLOCK ∨ sym = SDLK_NUMLOCKCLEAR ∨
  sym = SDLK_LCTRL ∨ sym = SDLK_LSHIFT ∨ sym = SDLK_LALT ∨
  sym = SDLK_RCTRL ∨ sym = SDLK_RSHIFT ∨ sym = SDLK_RALT ∨
  sym = SDLK_MODE ∨ sym = SDLK_LGUI ∨ sym = SDLK_RGUI

instance (sym : Nat) : Decidable (is_modifier_key sym) := by
  unfold is_modifier_key
  infer_instance

/-- The `switch` on `e.key.keysym.sym`, lines 182-232: the value of `kc` when
the `switch` is left, `0` when the key has no code. -/
def keysym_code (K : Keys) (sym : Nat) : Nat :=
  if sym = SDLK_RETURN then 0x0d
  else if sym = SDLK_TAB then 0x09
  else if sym = SDLK_F1 then K.KEY_BIAS + K.KEY_F1
  else if sym = SDLK_F2 then K.KEY_BIAS + K.KEY_F2
  else if sym = SDLK_F3 then K.KEY_BIAS + K.KEY_F3
  else if sym = SDLK_F4 then K.KEY_BIAS + K.KEY_F4
  else if sym = SDLK_F5 then K.KEY_BIAS + K.KEY_F5
  else if sym = SDLK_F6 then K.KEY_BIAS + K.KEY_F6
  else if sym = SDLK_F7 then K.KEY_BIAS + K.KEY_F7
  else if sym = SDLK_F8 then K.KEY_BIAS + K.KEY_F8
  else if sym = SDLK_F9 then K.KEY_BIAS + K.KEY_F9
  else if sym = SDLK_F10 then K.KEY_BIAS + K.KEY_F10
  else if sym = SDLK_F11 then K.KEY_BIAS + K.KEY_F11
  else if sym = SDLK_F12 then K.KEY_BIAS + K.KEY_F12
  else if sym = SDLK_F13 then K.KEY_BIAS + K.KEY_F13
  else if sym = SDLK_F14 then K.KEY_BIAS + K.KEY_F14
  else if sym = SDLK_F15 then K.KEY_BIAS + K.KEY_F15
  else if sym = SDLK_F16 then K.KEY_BIAS + K.KEY_F16
  else if sym = SDLK_F17 then K.KEY_BIAS + K.KEY_F17
  else if sym = SDLK_F18 then K.KEY_BIAS + K.KEY_F18
  else if sym = SDLK_F19 then K.KEY_BIAS + K.KEY_F19
  else if sym = SDLK_F20 then K.KEY_BIAS + K.KEY_F20
  else if sym = SDLK_ESCAPE then K.KEY_BIAS + K.KEY_ESCAPE
  else if sym = SDLK_BACKSPACE then K.KEY_BIAS + K.KEY_BACKSPACE
  else if sym = SDLK_PRINTSCREEN then K.KEY_BIAS + K.KEY_PRINT
  else if sym = SDLK_PAUSE then K.KEY_BIAS + K.KEY_BREAK
  else if sym = SDLK_HOME then K.KEY_BIAS + K.KEY_HOME
  else if sym = SDLK_END then K.KEY_BIAS + K.KEY_END
  else if sym = SDLK_INSERT then K.KEY_BIAS + K.KEY_IC
  else if sym = SDLK_DELETE then K.KEY_BIAS + K.KEY_DC
  else if sym = SDLK_PAGEUP then K.KEY_BIAS + K.KEY_PPAGE
  else if sym = SDLK_PAGEDOWN then K.KEY_BIAS + K.KEY_NPAGE
  else if sym = SDLK_RIGHT then K.KEY_BIAS + K.KEY_RIGHT
  else if sym = SDLK_LEFT then K.KEY_BIAS + K.KEY_LEFT
  else if sym = SDLK_UP then K.KEY_BIAS + K.KEY_UP
  else if sym = SDLK_DOWN then K.KEY_BIAS + K.KEY_DOWN
  else if sym = SDLK_KP_DIVIDE then K.KEY_BIAS + K.KEY_NUMDIVIDE
  else if sym = SDLK_KP_MULTIPLY then K.KEY_BIAS + K.KEY_NUMTIMES
  else if sym = SDLK_KP_MINUS then K.KEY_BIAS + K.KEY_NUMMINUS
  else if sym = SDLK_KP_PLUS then K.KEY_BIAS + K.KEY_NUMPLUS
  else if sym = SDLK_KP_ENTER then K.KEY_BIAS + K.KEY_ENTER
  else if sym = SDLK_KP_1 then K.KEY_BIAS + K.KEY_C1
  else if sym = SDLK_KP_2 then K.KEY_BIAS + K.KEY_C2
  else if sym = SDLK_KP_3 then K.KEY_BIAS + K.KEY_C3
  else if sym = SDLK_KP_4 then K.KEY_BIAS + K.KEY_B1
  else if sym = SDLK_KP_5 then K.KEY_BIAS + K.KEY_B2
  else if sym = SDLK_KP_6 then K.KEY_BIAS + K.KEY_B3
  else if sym = SDLK_KP_7 then K.KEY_BIAS + K.KEY_A1
  else if sym = SDLK_KP_8 then K.KEY_BIAS + K.KEY_A2
  else if sym = SDLK_KP_9 then K.KEY_BIAS + K.KEY_A3
  else if sym = SDLK_KP_0 then K.KEY_BIAS + K.KEY_D1
  else if sym = SDLK_KP_PERIOD then K.KEY_BIAS + K.KEY_D3
  else if is_modifier_key sym then 0
  else if 0x20 ≤ sym ∧ sym ≤ 0x7e then sym
  else if (sym &&& (0xFFFFFFFF - SDLK_SCANCODE_MASK)) + K.KEY_LAST_FUNCTION < 512 then
    (sym &&& (0xFFFFFFFF - SDLK_SCANCODE_MASK)) + K.KEY_LAST_FUNCTION + K.KEY_BIAS
  else 0

/-- The modifier composition, lines 235-243: the value of `kc` after it, given
its value `kc` before and the modifier state `mod`. -/
def apply_modifiers (K : Keys) (kc mod : Nat) : Nat :=
  if kc ≠ 0 then
    let kc1 := if mod &&& KMOD_ALT ≠ 0 then kc ||| K.KEY_ALT else kc
    if kc1 ≥ K.KEY_BIAS then
      let kc2 := if mod &&& KMOD_CTRL ≠ 0 then kc1 ||| K.KEY_CTRL else kc1
      if mod &&& KMOD_SHIFT ≠ 0 then kc2 ||| K.KEY_SHIFT else kc2
    else
      if mod &&& KMOD_CTRL ≠ 0 then kc1 &&& (0xFFFFFFFF - 64) else kc1
  else kc

/-- The key code computed for a key-down event, lines 182-243: the value of
`kc` tested by `if (kc) return kc;`. -/
def keydown_code (K : Keys) (sym mod : Nat) : Nat :=
  apply_modifiers K (keysym_code K sym) mod

/-! ## Drawing -/

def palette : List (Nat × Nat × Nat) :=
  [(0x00, 0x00, 0x00), (0xaf, 0x00, 0x00), (0x00, 0x87, 0x00), (0xaf, 0x5f, 0x00),
   (0x00, 0x00, 0xaf), (0x87, 0x00, 0x87), (0x00, 0xaf, 0x87), (0xaf, 0xaf, 0xaf),
   (0x5f, 0x5f, 0x5f), (0xff, 0x5f, 0x00), (0x00, 0xff, 0x00), (0xff, 0xff, 0x00),
   (0x87, 0x5f, 0xff), (0xff, 0x5f, 0xaf), (0x00, 0xd7, 0xff), (0xff, 0xff, 0xff)]

/-- The function `sdl_hook_update`, lines 262-286. -/
def sdl_hook_update (E : Env) (y x : Int) (s : World) : World :=
  let _ch := E.cp437_at y x
  let a := E.color_at y x
  let fgcolor := palette.getD (a &&& 15) (0, 0, 0)
  let bgcolor := palette.getD ((a >>> 5) &&& 15) (0, 0, 0)
  let fgcolor := if a &&& 16 ≠ 0 then palette.getD 7 (0, 0, 0) else fgcolor
  let bgcolor := if a &&& 512 ≠ 0 then palette.getD 0 (0, 0, 0) else bgcolor
  { s with calls := s.calls ++
      [Call.SDL_SetRenderDrawColor bgcolor.1 bgcolor.2.1 bgcolor.2.2 255,
       Call.SDL_RenderFillRect (x * fontwidth) (y * fontheight) fontwidth fontheight,
       Call.SDL_SetRenderDrawColor fgcolor.1 fgcolor.2.1 fgcolor.2.2 255,
       Call.SDL_RenderFillRect (x * fontwidth + 2) (y * fontheight + 2)
         (fontwidth - 4) (fontheight - 4),
       Call.uncursed_rhook_updated y x] }

/-- The inner loop of `sdl_hook_fullredraw`, line 292, entered with the column
counter at `i`.  The condition `i < winwidth` is the only way out of the loop;
the loop ends because each iteration brings the counter one closer to the
width, which `sdl_hook_update` does not change. -/
def fullredraw_row (E : Env) (j : Int) (i : Int) (s : World) : World :=
  if _h : i < s.winwidth then fullredraw_row E j (i + 1) (sdl_hook_update E j i s)
  else s
termination_by (s.winwidth - i).toNat
decreasing_by
  have hw : (sdl_hook_update E j i s).winwidth = s.winwidth := rfl
  rw [hw]
  omega

/-- The outer loop of `sdl_hook_fullredraw`, line 291, entered with the row
counter at `j`.  The condition `j < winheight` is the only way out of the loop;
the loop ends because each iteration brings the counter one closer to the
height, which the inner loop does not change. -/
def fullredraw_rows (E : Env) (j : Int) (s : World) : World :=
  if _h : j < s.winheight then fullredraw_rows E (j + 1) (fullredraw_row E j 0 s)
  else s
termination_by (s.winheight - j).toNat
decreasing_by
  have key : ∀ (n : Nat) (i : Int) (t : World), (t.winwidth - i).toNat = n →
      (fullredraw_row E j i t).winheight = t.winheight := by
    intro n
    induction n with
    | zero =>
      intro i t hn
      rw [fullredraw_row, dif_neg (by omega)]
    | succ n ih =>
      intro i t hn
      rw [fullredraw_row]
      split_ifs with hc
      · have hw : (sdl_hook_update E j i t).winwidth = t.winwidth := rfl
        rw [ih (i + 1) (sdl_hook_update E j i t) (by rw [hw]; omega)]
        rfl
      · rfl
  rw [key _ 0 s rfl]
  omega

/-- The function `sdl_hook_fullredraw`, lines 288-294: the outer loop entered
with its counter at 0, each row entering the inner loop with its counter at
0. -/
def sdl_hook_fullredraw (E : Env) (s : World) : World :=
  fullredraw_rows E 0 s

/-! ## The key-wait loop -/

/-- The waits `SDL_WaitEvent` and `SDL_WaitEventTimeout`: the next outcome of
`World.events`.  An event that reports a new window size arrives with the
window already at that size.  `none` when no outcome is left: the wait does not
return. -/
def SDL_WaitEvent (s : World) : Option (Option SDL_Event × World) :=
  match s.events with
  | [] => none
  | none :: rest => some (none, { s with events := rest })
  | some (SDL_Event.SDL_WINDOWEVENT event data1 data2) :: rest =>
    if event = SDL_WINDOWEVENT_RESIZED ∨ event = SDL_WINDOWEVENT_SIZE_CHANGED then
      some (some (SDL_Event.SDL_WINDOWEVENT event data1 data2),
            { s with events := rest, pixw := data1, pixh := data2 })
    else
      some (some (SDL_Event.SDL_WINDOWEVENT event data1 data2), { s with events := rest })
  | some e :: rest => some (some e, { s with events := rest })

/-- How the `switch (e.type)` of the wait loop is left. -/
inductive Step where
  /-- By `return k`. -/
  | ret (k : Nat) (s : World)
  /-- By `break`, or without a matching case: on to the loop condition. -/
  | brk (s : World)
  deriving DecidableEq, Repr

/-- The `switch (e.type)` of the wait loop, lines 166-249. -/
def handle_event (K : Keys) (E : Env) (e : SDL_Event) (s : World) : Step :=
  match e with
  | SDL_Event.SDL_WINDOWEVENT event _ _ =>
    let s1 :=
      if event = SDL_WINDOWEVENT_RESIZED ∨ event = SDL_WINDOWEVENT_SIZE_CHANGED then
        update_window_sizes s
      else s
    let s2 := if event = SDL_WINDOWEVENT_EXPOSED then sdl_hook_fullredraw E s1 else s1
    if event = SDL_WINDOWEVENT_CLOSE then
      Step.ret (K.KEY_HANGUP + K.KEY_BIAS) { s2 with hangup_mode := 1 }
    else Step.brk s2
  | SDL_Event.SDL_KEYDOWN sym mod =>
    let kc := keydown_code K sym mod
    if kc ≠ 0 then Step.ret kc s else Step.brk s
  | SDL_Event.SDL_QUIT => Step.ret (K.KEY_HANGUP + K.KEY_BIAS) { s with hangup_mode := 1 }
  | SDL_Event.other => Step.brk s

/-- The `do ... while` loop of `sdl_hook_getkeyorcodepoint`, lines 151-251,
with `fuel` bounding the number of iterations.  `none` when the loop does not
return: a wait that never ends, or no iteration left. -/
def getkey_loop (K : Keys) (E : Env) (timeout_ms tick_target : Int) :
    Nat → World → Option (Nat × World)
  | 0, _ => none
  | fuel + 1, s =>
    if s.suppress_resize = 0 ∧ s.resize_queued ≠ 0 then
      let s1 := update_window_sizes s
      let s2 : World := { s1 with resize_queued := 0 }
      let s3 : World :=
        { s2 with calls := s2.calls ++ [Call.uncursed_rhook_setsize s2.winheight s2.winwidth] }
      some (K.KEY_RESIZE + K.KEY_BIAS, s3)
    else
      let s1 := if timeout_ms = 0 then s else (SDL_GetTicks E s).2
      match SDL_WaitEvent s1 with
      | none => none
      | some (none, s2) => some (K.KEY_SILENCE + K.KEY_BIAS, s2)
      | some (some e, s2) =>
        match handle_event K E e s2 with
        | Step.ret k s3 => some (k, s3)
        | Step.brk s3 =>
          if timeout_ms = 0 then getkey_loop K E timeout_ms tick_target fuel s3
          else
            let r := SDL_GetTicks E s3
            if (r.1 : Int) < tick_target then getkey_loop K E timeout_ms tick_target fuel r.2
            else some (K.KEY_SILENCE + K.KEY_BIAS, r.2)

/-- The function `sdl_hook_getkeyorcodepoint`, lines 145-252.  Every iteration
that does not return takes one outcome from `World.events`, so one iteration
more than there are outcomes is all the loop can make. -/
def sdl_hook_getkeyorcodepoint (K : Keys) (E : Env) (timeout_ms : Int) (s : World) :
    Option (Nat × World) :=
  let r := SDL_GetTicks E s
  let tick_target : Int := ((r.1 : Int) + timeout_ms) % 2 ^ 32
  if r.2.hangup_mode ≠ 0 then some (K.KEY_HANGUP + K.KEY_BIAS, r.2)
  else getkey_loop K E timeout_ms tick_target (r.2.events.length + 1) r.2

/-! ## The timed delay -/

/-- Conversion of a `long` to `int`: the value modulo `2 ^ 32`, in the signed
range. -/
def toInt32 (x : Int) : Int := (x + 2 ^ 31) % 2 ^ 32 - 2 ^ 31

/-- The `while` loop of `sdl_hook_delay`, lines 138-141, with `fuel` bounding
the number of iterations.  `none` when a key request does not return or no
iteration is left. -/
def delay_loop (K : Keys) (E : Env) (tick_target : Int) : Nat → World → Option World
  | 0, _ => none
  | fuel + 1, s =>
    let r := SDL_GetTicks E s
    if (r.1 : Int) < tick_target then
      let r2 := SDL_GetTicks E r.2
      match sdl_hook_getkeyorcodepoint K E (toInt32 (tick_target - (r2.1 : Int))) r2.2 with
      | none => none
      | some (k, s3) =>
        if k = K.KEY_HANGUP then some s3 else delay_loop K E tick_target fuel s3
    else some r.2

/-- The function `sdl_hook_delay`, lines 128-143. -/
def sdl_hook_delay (K : Keys) (E : Env) (fuel : Nat) (ms : Int) (s : World) : Option World :=
  let r := SDL_GetTicks E s
  let tick_target : Int := ((r.1 : Int) + ms) % 2 ^ 32
  let s1 : World := { r.2 with suppress_resize := 1 }
  match delay_loop K E tick_target fuel s1 with
  | none => none
  | some s2 => some { s2 with suppress_resize := 0 }

/-! ## Window-size reconciliation, field by field -/

/-- The grid width that `update_window_sizes` derives from a pixel width
(lines 63-64). -/
def derived_width (pw : Int) : Int :=
  if Int.tdiv pw fontwidth < MINCHARWIDTH then MINCHARWIDTH else Int.tdiv pw fontwidth

/-- The grid height that `update_window_sizes` derives from a pixel height
(lines 63 and 65). -/
def derived_height (ph : Int) : Int :=
  if Int.tdiv ph fontheight < MINCHARHEIGHT then MINCHARHEIGHT else Int.tdiv ph fontheight

/-- The state that `update_window_sizes` leaves, written field by field in terms
of the derived grid size; `update_window_sizes_eq` proves the two equal. -/
def reconciled (s : World) : World :=
  let w := derived_width s.pixw
  let h := derived_height s.pixh
  { s with
    winwidth := w
    winheight := h
    resize_queued := if w ≠ s.winwidth ∨ h ≠ s.winheight then 1 else s.resize_queued
    pixw := max (if w ≠ s.pixw ∨ h ≠ s.pixh then w * 8 else s.pixw) 640
    pixh := max (if w ≠ s.pixw ∨ h ≠ s.pixh then h * 14 else s.pixh) 336
    calls := s.calls ++
      ((if w ≠ s.pixw ∨ h ≠ s.pixh then
          [Call.SDL_SetWindowSize (w * 8) (h * 14),
           Call.SDL_RenderSetLogicalSize (w * 8) (h * 14)]
        else []) ++ [Call.SDL_SetWindowMinimumSize 640 336]) }

/-! ## Concrete inputs -/

/-- An assignment of the header's constants on which the definitions can be
run: the three modifier flags on bits 11 to 13, the bias `2 ^ 16` above them (a
printable code with the ALT flag on it stays below the bias), the named keys
numbered from 1, the three signals from 512. -/
def Keys.sample : Keys :=
  { KEY_BIAS := 65536, KEY_ALT := 4096, KEY_CTRL := 8192, KEY_SHIFT := 2048,
    KEY_HANGUP := 512, KEY_RESIZE := 513, KEY_SILENCE := 514, KEY_LAST_FUNCTION := 58,
    KEY_F1 := 1, KEY_F2 := 2, KEY_F3 := 3, KEY_F4 := 4, KEY_F5 := 5, KEY_F6 := 6,
    KEY_F7 := 7, KEY_F8 := 8, KEY_F9 := 9, KEY_F10 := 10, KEY_F11 := 11, KEY_F12 := 12,
    KEY_F13 := 13, KEY_F14 := 14, KEY_F15 := 15, KEY_F16 := 16, KEY_F17 := 17,
    KEY_F18 := 18, KEY_F19 := 19, KEY_F20 := 20, KEY_ESCAPE := 21, KEY_BACKSPACE := 22,
    KEY_PRINT := 23, KEY_BREAK := 24, KEY_HOME := 25, KEY_END := 26, KEY_IC := 27,
    KEY_DC := 28, KEY_PPAGE := 29, KEY_NPAGE := 30, KEY_RIGHT := 31, KEY_LEFT := 32,
    KEY_UP := 33, KEY_DOWN := 34, KEY_NUMDIVIDE := 35, KEY_NUMTIMES := 36,
    KEY_NUMMINUS := 37, KEY_NUMPLUS := 38, KEY_ENTER := 39, KEY_C1 := 40, KEY_C2 := 41,
    KEY_C3 := 42, KEY_B1 := 43, KEY_B2 := 44, KEY_B3 := 45, KEY_A1 := 46, KEY_A2 := 47,
    KEY_A3 := 48, KEY_D1 := 49, KEY_D3 := 50 }

/-- A clock that advances by one millisecond from one reading to the next, and
a host buffer of blanks in the default colour. -/
def Env.sample : Env :=
  { ticks := fun n => n, cp437_at := fun _ _ => 32, color_at := fun _ _ => 7 }

/-- All three start-up requests succeed. -/
def Startup.ok : Startup :=
  { SDL_Init_ok := true, SDL_CreateWindow_ok := true, SDL_CreateRenderer_ok := true }

/-- The state right after a successful `sdl_hook_init`: a window of 960x420
pixels showing 120x30 cells. -/
def World.started : World :=
  { World.initial with win := true, render := true, pixw := 960, pixh := 420 }

/-! ## Reading the list of requests -/

/-- The cells of a grid of `h` rows and `w` columns as (row, column), in
row-major order: all columns of row 0 from left to right, then row 1, and so
on. -/
def grid_cells (h w : Nat) : List (Int × Int) :=
  (List.range h).flatMap fun (j : Nat) =>
    (List.range w).map fun (i : Nat) => ((j : Int), (i : Int))

/-- The requests that one `sdl_hook_update y x` makes. -/
def cell_calls (E : Env) (y x : Int) : List Call :=
  (sdl_hook_update E y x { World.initial with calls := [] }).calls

/-- The cells that the host was told are drawn, in the order of the
notifications: one for each call of `sdl_hook_update`. -/
def updated_cells (cs : List Call) : List (Int × Int) :=
  cs.filterMap fun c =>
    match c with
    | Call.uncursed_rhook_updated y x => some (y, x)
    | _ => none

/-- The grid sizes (height, width) that the host was notified of, in order. -/
def host_resizes (cs : List Call) : List (Int × Int) :=
  cs.filterMap fun c =>
    match c with
    | Call.uncursed_rhook_setsize h w => some (h, w)
    | _ => none


/-- The state in which the `switch` of the wait loop is left. -/
def Step.state : Step → World
  | Step.ret _ s => s
  | Step.brk s => s

/-- Whether the event is a window event reporting a new size, the kind that
makes the wait loop call `update_window_sizes`. -/
def is_resize_event : SDL_Event → Bool
  | SDL_Event.SDL_WINDOWEVENT event _ _ =>
    decide (event = SDL_WINDOWEVENT_RESIZED ∨ event = SDL_WINDOWEVENT_SIZE_CHANGED)
  | _ => false

/-- Whether no outcome of the queue is a window event reporting a new size. -/
def no_resize_events (evs : List (Option SDL_Event)) : Bool :=
  evs.all fun o =>
    match o with
    | some e => !is_resize_event e
    | none => true

/-- What a step, taking the state `s` to `s1`, leaves alone when it reports no
resize: the suppression flag, the sizes the host was notified of, the event
queue, and a pending-resize flag that is set. -/
def Quiet (s s1 : World) : Prop :=
  s1.suppress_resize = s.suppress_resize ∧ host_resizes s1.calls = host_resizes s.calls ∧
  s1.events = s.events ∧ (s.resize_queued ≠ 0 → s1.resize_queued ≠ 0)

instance (s s1 : World) : Decidable (Quiet s s1) := by
  unfold Quiet
  infer_instance

/-! # Theorems -/

/-! ## Window-size reconciliation -/

theorem tdiv_by_cases (a b : Int) (hb : 0 < b) :
    Int.tdiv a b = if 0 ≤ a then a / b else -((-a) / b) := by
  split_ifs with h
  · exact Int.tdiv_eq_ediv h hb.le
  · have h2 : 0 ≤ -a := by omega
    rw [← Int.tdiv_eq_ediv h2 hb.le, Int.neg_tdiv, neg_neg]

theorem derived_width_eq (pw : Int) :
    derived_width pw = if 0 ≤ pw then max (pw / 8) 80 else 80 := by
  unfold derived_width fontwidth MINCHARWIDTH
  rw [tdiv_by_cases pw 8 (by norm_num)]
  split_ifs <;> omega

theorem derived_height_eq (ph : Int) :
    derived_height ph = if 0 ≤ ph then max (ph / 14) 24 else 24 := by
  unfold derived_height fontheight MINCHARHEIGHT
  rw [tdiv_by_cases ph 14 (by norm_num)]
  split_ifs <;> omega

/-- The only pixel width that equals the grid width derived from it is 80. -/
theorem derived_width_fixed (pw : Int) : derived_width pw = pw ↔ pw = 80 := by
  rw [derived_width_eq]
  split_ifs <;> omega

/-- The only pixel height that equals the grid height derived from it is 24. -/
theorem derived_height_fixed (ph : Int) : derived_height ph = ph ↔ ph = 24 := by
  rw [derived_height_eq]
  split_ifs <;> omega

theorem update_window_sizes_eq (s : World) : update_window_sizes s = reconciled s := by
  by_cases h1 : derived_width s.pixw ≠ s.pixw ∨ derived_height s.pixh ≠ s.pixh <;>
  by_cases h2 : derived_width s.pixw ≠ s.winwidth ∨ derived_height s.pixh ≠ s.winheight
  all_goals
    have h1' := h1
    have h2' := h2
    unfold derived_width derived_height at h1' h2'
    simp only [update_window_sizes, reconciled, SDL_SetWindowMinimumSize,
      SDL_RenderSetLogicalSize, SDL_SetWindowSize, if_pos, if_neg, h1, h2, h1', h2',
      not_false_eq_true]
    simp [derived_width, derived_height, fontwidth, fontheight, MINCHARWIDTH, MINCHARHEIGHT]

/-- Claim C3.  For every window pixel size with non-negative width and height,
whatever the previous grid size and flags, `update_window_sizes` stores the
grid width `max (floor (pw / 8)) 80` and the grid height
`max (floor (ph / 14)) 24`.  A first `sdl_hook_init` whose start-up requests
succeed creates the window at 960x420 pixels and reports exactly 30 rows and
120 columns to its caller, whatever the two output cells held before. -/
theorem update_window_sizes_grid (s : World) (hw : 0 ≤ s.pixw) (hh : 0 ≤ s.pixh) :
    (update_window_sizes s).winwidth = max (s.pixw / 8) 80 ∧
    (update_window_sizes s).winheight = max (s.pixh / 14) 24 ∧
    ∀ h0 w0 : Int, ∃ s1 : World,
      sdl_hook_init Startup.ok h0 w0 World.initial = some (30, 120, s1) ∧
      s1.pixw = 960 ∧ s1.pixh = 420 ∧ s1.winwidth = 120 ∧ s1.winheight = 30 := by
  refine ⟨?_, ?_, ?_⟩
  · rw [update_window_sizes_eq]
    show derived_width s.pixw = _
    rw [derived_width_eq, if_pos hw]
  · rw [update_window_sizes_eq]
    show derived_height s.pixh = _
    rw [derived_height_eq, if_pos hh]
  · intro h0 w0
    exact ⟨_, rfl, rfl, rfl, rfl, rfl⟩

/-- Witness for C3: a window of 961x425 pixels over a stored 120x30 grid. -/
theorem update_window_sizes_grid_witness :
    (update_window_sizes { World.started with pixw := 961, pixh := 425 }).winwidth
        = max (961 / 8) 80 ∧
    (update_window_sizes { World.started with pixw := 961, pixh := 425 }).winheight
        = max (425 / 14) 24 ∧
    ∀ h0 w0 : Int, ∃ s1 : World,
      sdl_hook_init Startup.ok h0 w0 World.initial = some (30, 120, s1) ∧
      s1.pixw = 960 ∧ s1.pixh = 420 ∧ s1.winwidth = 120 ∧ s1.winheight = 30 :=
  update_window_sizes_grid { World.started with pixw := 961, pixh := 425 }
    (by decide) (by decide)

theorem derived_width_ge (pw : Int) : 80 ≤ derived_width pw := by
  rw [derived_width_eq]
  split_ifs <;> omega

theorem derived_height_ge (ph : Int) : 24 ≤ derived_height ph := by
  rw [derived_height_eq]
  split_ifs <;> omega

/-- After the reconciliation the window has the pixel size of the derived grid,
in every state: by the set-window-size request when the guard of line 66 lets
it through, and at 80x24 pixels, the one size at which the guard stops it, by
the minimum-size request of lines 70-71. -/
theorem update_window_sizes_pix (s : World) :
    (update_window_sizes s).pixw = derived_width s.pixw * 8 ∧
    (update_window_sizes s).pixh = derived_height s.pixh * 14 := by
  have hw := derived_width_ge s.pixw
  have hh := derived_height_ge s.pixh
  rw [update_window_sizes_eq]
  simp only [reconciled]
  by_cases hg : derived_width s.pixw ≠ s.pixw ∨ derived_height s.pixh ≠ s.pixh
  · rw [if_pos hg, if_pos hg]
    constructor
    · exact max_eq_left (by omega)
    · exact max_eq_left (by omega)
  · rw [if_neg hg, if_neg hg]
    push_neg at hg
    have h1 := (derived_width_fixed _).1 hg.1
    have h2 := (derived_height_fixed _).1 hg.2
    rw [hg.1, hg.2, h1, h2]
    exact ⟨rfl, rfl⟩

theorem update_window_sizes_stored (s : World) :
    (update_window_sizes s).winwidth = derived_width s.pixw ∧
    (update_window_sizes s).winheight = derived_height s.pixh := by
  rw [update_window_sizes_eq]
  exact ⟨rfl, rfl⟩

/-- Claim C4.  For every window pixel size with non-negative width and height,
whatever the previous state, after `update_window_sizes` the window's pixel
size is (winwidth * 8, winheight * 14), so its width is divisible by 8 and its
height by 14; and every pixel size below the minimum in both dimensions
(width below 640 and height below 336) ends with the grid 80x24 and the pixel
size 640x336. -/
theorem update_window_sizes_pixels (s : World) (hw : 0 ≤ s.pixw) (hh : 0 ≤ s.pixh) :
    (update_window_sizes s).pixw = (update_window_sizes s).winwidth * 8 ∧
    (update_window_sizes s).pixh = (update_window_sizes s).winheight * 14 ∧
    (8 : Int) ∣ (update_window_sizes s).pixw ∧
    (14 : Int) ∣ (update_window_sizes s).pixh ∧
    (s.pixw < 640 → s.pixh < 336 →
      (update_window_sizes s).winwidth = 80 ∧ (update_window_sizes s).winheight = 24 ∧
      (update_window_sizes s).pixw = 640 ∧ (update_window_sizes s).pixh = 336) := by
  obtain ⟨p1, p2⟩ := update_window_sizes_pix s
  obtain ⟨g1, g2⟩ := update_window_sizes_stored s
  refine ⟨by rw [p1, g1], by rw [p2, g2], ?_, ?_, fun h1 h2 => ?_⟩
  · rw [p1]
    exact Dvd.intro_left _ rfl
  · rw [p2]
    exact Dvd.intro_left _ rfl
  · have e1 : derived_width s.pixw = 80 := by
      rw [derived_width_eq, if_pos hw]
      omega
    have e2 : derived_height s.pixh = 24 := by
      rw [derived_height_eq, if_pos hh]
      omega
    rw [p1, p2, g1, g2, e1, e2]
    exact ⟨rfl, rfl, rfl, rfl⟩

/-- Witness for C4: a window of 80x24 pixels, the size at which the derived
grid 80x24 equals the pixel size as numbers and the guard of line 66 makes no
set-window-size request, ends at 640x336 pixels with the grid 80x24; the
minimum-size request is the only one made. -/
theorem update_window_sizes_pixels_witness :
    ((update_window_sizes { World.started with pixw := 80, pixh := 24 }).winwidth = 80 ∧
     (update_window_sizes { World.started with pixw := 80, pixh := 24 }).winheight = 24 ∧
     (update_window_sizes { World.started with pixw := 80, pixh := 24 }).pixw = 640 ∧
     (update_window_sizes { World.started with pixw := 80, pixh := 24 }).pixh = 336) ∧
    (update_window_sizes { World.started with pixw := 80, pixh := 24 }).calls
      = [Call.SDL_SetWindowMinimumSize 640 336] :=
  ⟨(update_window_sizes_pixels { World.started with pixw := 80, pixh := 24 }
      (by decide) (by decide)).2.2.2.2 (by decide) (by decide),
   by decide⟩

/-- Claim C10 as stated fails.  The window is 961x420 pixels over a stored grid
of 120x30: the derived grid is again 120x30, equal to the stored one, and yet a
set-window-size request is made and the pixel width changes from 961 to 960.
The pending-resize flag keeps its value 0. -/
theorem update_window_sizes_same_grid_resized :
    (update_window_sizes { World.started with pixw := 961 }).winwidth
        = ({ World.started with pixw := 961 } : World).winwidth ∧
    (update_window_sizes { World.started with pixw := 961 }).winheight
        = ({ World.started with pixw := 961 } : World).winheight ∧
    (update_window_sizes { World.started with pixw := 961 }).pixw
        ≠ ({ World.started with pixw := 961 } : World).pixw ∧
    Call.SDL_SetWindowSize 960 420
        ∈ (update_window_sizes { World.started with pixw := 961 }).calls ∧
    (update_window_sizes { World.started with pixw := 961 }).resize_queued = 0 := by
  decide

/-- Claim C10, amended.  In every state, `update_window_sizes` sets the
pending-resize flag to 1 when the derived grid width or height differs from the
stored one, leaves the flag at its previous value when both are equal, and
never clears it.  The resize of the pixel surface is not tied to that
comparison: in every state the window's pixel size after the call is
(grid width * 8, grid height * 14), whether or not the derived grid equals the
stored one; and for every pixel size other than exactly 80x24 that differs from
it, the requests made are a set-window-size and a set-logical-size request with
those values followed by the minimum-size request. -/
theorem update_window_sizes_pixels_and_flag (s : World) :
    (((update_window_sizes s).winwidth ≠ s.winwidth ∨
      (update_window_sizes s).winheight ≠ s.winheight) →
      (update_window_sizes s).resize_queued = 1) ∧
    (((update_window_sizes s).winwidth = s.winwidth ∧
      (update_window_sizes s).winheight = s.winheight) →
      (update_window_sizes s).resize_queued = s.resize_queued) ∧
    (s.resize_queued ≠ 0 → (update_window_sizes s).resize_queued ≠ 0) ∧
    ((update_window_sizes s).pixw = (update_window_sizes s).winwidth * 8 ∧
     (update_window_sizes s).pixh = (update_window_sizes s).winheight * 14) ∧
    (¬ (s.pixw = 80 ∧ s.pixh = 24) →
      (s.pixw ≠ (update_window_sizes s).winwidth * 8 ∨
       s.pixh ≠ (update_window_sizes s).winheight * 14) →
      (update_window_sizes s).calls = s.calls ++
        [Call.SDL_SetWindowSize ((update_window_sizes s).winwidth * 8)
           ((update_window_sizes s).winheight * 14),
         Call.SDL_RenderSetLogicalSize ((update_window_sizes s).winwidth * 8)
           ((update_window_sizes s).winheight * 14),
         Call.SDL_SetWindowMinimumSize 640 336]) := by
  obtain ⟨p1, p2⟩ := update_window_sizes_pix s
  obtain ⟨g1, g2⟩ := update_window_sizes_stored s
  refine ⟨?_, ?_, ?_, ⟨by rw [p1, g1], by rw [p2, g2]⟩, fun hne _ => ?_⟩
  · intro h
    rw [g1, g2] at h
    rw [update_window_sizes_eq]
    exact if_pos h
  · intro h
    rw [g1, g2] at h
    rw [update_window_sizes_eq]
    refine if_neg ?_
    rintro (h1 | h1)
    · exact h1 h.1
    · exact h1 h.2
  · intro h
    rw [update_window_sizes_eq]
    simp only [reconciled]
    split_ifs
    · decide
    · exact h
  · have hg : derived_width s.pixw ≠ s.pixw ∨ derived_height s.pixh ≠ s.pixh := by
      by_contra hc
      push_neg at hc
      exact hne ⟨(derived_width_fixed _).1 hc.1, (derived_height_fixed _).1 hc.2⟩
    rw [g1, g2, update_window_sizes_eq]
    simp only [reconciled, if_pos hg]
    simp

/-- Witness for the amended C10: the 961x420 window over the stored 120x30
grid ends at 960x420 pixels with the flag still 0; and a window of 80x24 pixels
over the same stored grid, with the flag already set, ends with the flag
set. -/
theorem update_window_sizes_pixels_and_flag_witness :
    ((update_window_sizes { World.started with pixw := 961 }).pixw
        = (update_window_sizes { World.started with pixw := 961 }).winwidth * 8 ∧
     (update_window_sizes { World.started with pixw := 961 }).pixh
        = (update_window_sizes { World.started with pixw := 961 }).winheight * 14) ∧
    (update_window_sizes { World.started with pixw := 961 }).resize_queued
        = ({ World.started with pixw := 961 } : World).resize_queued ∧
    (update_window_sizes
        { World.started with pixw := 80, pixh := 24, resize_queued := 1 }).resize_queued ≠ 0 :=
  ⟨(update_window_sizes_pixels_and_flag { World.started with pixw := 961 }).2.2.2.1,
   (update_window_sizes_pixels_and_flag { World.started with pixw := 961 }).2.1 (by decide),
   (update_window_sizes_pixels_and_flag
      { World.started with pixw := 80, pixh := 24, resize_queued := 1 }).2.2.1 (by decide)⟩

/-! ## Key translation -/

/-- Every key symbol made from a scancode is at least `2 ^ 30`. -/
theorem scancode_key_ge (x : Nat) : 0x40000000 ≤ SDL_SCANCODE_TO_KEYCODE x := by
  unfold SDL_SCANCODE_TO_KEYCODE SDLK_SCANCODE_MASK
  apply Nat.le_of_testBit
  intro i hi
  simp [hi]

/-- A symbol in the printable range is no case label of the `switch`: it
reaches `default` and is stored as it is. -/
theorem keysym_code_printable (K : Keys) (sym : Nat) (hlo : 0x20 ≤ sym) (hhi : sym ≤ 0x7e) :
    keysym_code K sym = sym := by
  have hsc : ∀ x, (sym = SDL_SCANCODE_TO_KEYCODE x) = False := by
    intro x
    have := scancode_key_ge x
    simp only [eq_iff_iff, iff_false]
    omega
  have h1 : (sym = 13) = False := by simp only [eq_iff_iff, iff_false]; omega
  have h2 : (sym = 9) = False := by simp only [eq_iff_iff, iff_false]; omega
  have h3 : (sym = 27) = False := by simp only [eq_iff_iff, iff_false]; omega
  have h4 : (sym = 8) = False := by simp only [eq_iff_iff, iff_false]; omega
  have h5 : (sym = 127) = False := by simp only [eq_iff_iff, iff_false]; omega
  have h6 : (0x20 ≤ sym ∧ sym ≤ 0x7e) = True := by
    simp only [eq_iff_iff, iff_true]
    exact ⟨hlo, hhi⟩
  simp only [keysym_code, is_modifier_key, SDLK_RETURN, SDLK_TAB, SDLK_ESCAPE,
    SDLK_BACKSPACE, SDLK_DELETE, SDLK_CAPSLOCK, SDLK_F1, SDLK_F2, SDLK_F3, SDLK_F4, SDLK_F5,
    SDLK_F6, SDLK_F7, SDLK_F8, SDLK_F9, SDLK_F10, SDLK_F11, SDLK_F12, SDLK_PRINTSCREEN,
    SDLK_SCROLLLOCK, SDLK_PAUSE, SDLK_INSERT, SDLK_HOME, SDLK_PAGEUP, SDLK_END,
    SDLK_PAGEDOWN, SDLK_RIGHT, SDLK_LEFT, SDLK_DOWN, SDLK_UP, SDLK_NUMLOCKCLEAR,
    SDLK_KP_DIVIDE, SDLK_KP_MULTIPLY, SDLK_KP_MINUS, SDLK_KP_PLUS, SDLK_KP_ENTER, SDLK_KP_1,
    SDLK_KP_2, SDLK_KP_3, SDLK_KP_4, SDLK_KP_5, SDLK_KP_6, SDLK_KP_7, SDLK_KP_8, SDLK_KP_9,
    SDLK_KP_0, SDLK_KP_PERIOD, SDLK_F13, SDLK_F14, SDLK_F15, SDLK_F16, SDLK_F17, SDLK_F18,
    SDLK_F19, SDLK_F20, SDLK_LCTRL, SDLK_LSHIFT, SDLK_LALT, SDLK_LGUI, SDLK_RCTRL,
    SDLK_RSHIFT, SDLK_RALT, SDLK_RGUI, SDLK_MODE, hsc, h1, h2, h3, h4, h5, h6, if_false,
    or_self, if_true]

/-- The twelve modifier keys leave the `switch` with `kc = 0`. -/
theorem keysym_code_modifier (K : Keys) (sym : Nat) (h : is_modifier_key sym) :
    keysym_code K sym = 0 := by
  rcases h with h | h | h | h | h | h | h | h | h | h | h | h <;> subst h <;> rfl

/-- No modifier is applied to `kc = 0`. -/
theorem apply_modifiers_zero (K : Keys) (mod : Nat) : apply_modifiers K 0 mod = 0 := by
  simp [apply_modifiers]

/-- The bits of the 32-bit complement of 64: all of the low 32 but bit 6. -/
theorem testBit_not_64 (i : Nat) :
    (0xFFFFFFFF - 64 : Nat).testBit i = (decide (i < 32) && decide (i ≠ 6)) := by
  rcases Nat.lt_or_ge i 32 with h | h
  · interval_cases i <;> rfl
  · have h1 : (0xFFFFFFFF - 64 : Nat) < 2 ^ i :=
      lt_of_lt_of_le (by norm_num) (Nat.pow_le_pow_right (by norm_num) h)
    rw [Nat.testBit_lt_two_pow h1]
    have h2 : ¬ i < 32 := by omega
    simp [h2]

/-- Clearing bit 6 keeps a flag that fits an `int` and has no bit 6. -/
theorem and_not_64_keeps (kc A : Nat) (h64 : A &&& 64 = 0) (hA : A < 2 ^ 31)
    (h : kc &&& A = A) : (kc &&& (0xFFFFFFFF - 64)) &&& A = A := by
  apply Nat.eq_of_testBit_eq
  intro i
  have hk : (kc &&& A).testBit i = A.testBit i := by rw [h]
  rw [Nat.testBit_and] at hk
  rw [Nat.testBit_and, Nat.testBit_and, testBit_not_64]
  cases hb : A.testBit i
  · simp
  · rw [hb] at hk
    have hi : i < 31 := by
      by_contra hc
      have h1 : A < 2 ^ i := lt_of_lt_of_le hA (Nat.pow_le_pow_right (by norm_num) (by omega))
      rw [Nat.testBit_lt_two_pow h1] at hb
      exact Bool.noConfusion hb
    have h6 : i ≠ 6 := by
      rintro rfl
      have h2 : (A &&& 64).testBit 6 = false := by rw [h64]; simp
      rw [Nat.testBit_and, hb] at h2
      exact Bool.noConfusion h2
    have hi2 : i < 32 := by omega
    simp only [Bool.and_true] at hk
    simp [hk, hi2, h6]

theorem or_and_self (kc A : Nat) : (kc ||| A) &&& A = A := by
  apply Nat.eq_of_testBit_eq
  intro i
  rw [Nat.testBit_and, Nat.testBit_or]
  cases kc.testBit i <;> cases A.testBit i <;> rfl

theorem or_keeps (kc A B : Nat) (h : kc &&& A = A) : (kc ||| B) &&& A = A := by
  apply Nat.eq_of_testBit_eq
  intro i
  have hk : (kc &&& A).testBit i = A.testBit i := by rw [h]
  rw [Nat.testBit_and] at hk
  rw [Nat.testBit_and, Nat.testBit_or]
  cases h1 : kc.testBit i <;> cases h2 : A.testBit i <;> cases B.testBit i <;>
    simp_all

/-- Without ALT a code below the bias only has bit 6 cleared, and only under
CTRL. -/
theorem apply_modifiers_below_bias (K : Keys) (kc mod : Nat) (hk : kc ≠ 0)
    (hlt : kc < K.KEY_BIAS) (halt : mod &&& KMOD_ALT = 0) :
    apply_modifiers K kc mod =
      if mod &&& KMOD_CTRL ≠ 0 then kc &&& (0xFFFFFFFF - 64) else kc := by
  have h1 : ¬ kc ≥ K.KEY_BIAS := by omega
  simp only [apply_modifiers, halt, ne_eq, not_true_eq_false, if_false, hk, not_false_eq_true,
    if_true, h1]

/-- Claim C6.  For a key-down event whose symbol `sym` is printable ASCII
(0x20 to 0x7e) with ALT not held, under a header whose bias lies above the
printable range: with CTRL held the computed key code is `sym` AND NOT 64, that
is `sym` with bit 6 cleared and every other bit kept; without CTRL it is `sym`
itself; SHIFT, and every modifier bit other than CTRL and ALT, has no effect on
it.  The symbol 0x41 with left CTRL gives 0x01. -/
theorem keydown_code_printable (K : Keys) (sym mod : Nat)
    (hbias : 0x7e < K.KEY_BIAS) (hlo : 0x20 ≤ sym) (hhi : sym ≤ 0x7e)
    (halt : mod &&& KMOD_ALT = 0) :
    (mod &&& KMOD_CTRL ≠ 0 →
      keydown_code K sym mod = sym &&& (0xFFFFFFFF - 64) ∧
      ∀ i, (keydown_code K sym mod).testBit i = (sym.testBit i && decide (i ≠ 6))) ∧
    (mod &&& KMOD_CTRL = 0 → keydown_code K sym mod = sym) ∧
    (∀ mod2, mod2 &&& KMOD_ALT = 0 →
      (mod2 &&& KMOD_CTRL ≠ 0 ↔ mod &&& KMOD_CTRL ≠ 0) →
      keydown_code K sym mod2 = keydown_code K sym mod) ∧
    keydown_code K 0x41 0x40 = 0x01 := by
  have hk : sym ≠ 0 := by omega
  have hlt : sym < K.KEY_BIAS := by omega
  have key : ∀ m, m &&& KMOD_ALT = 0 →
      keydown_code K sym m = if m &&& KMOD_CTRL ≠ 0 then sym &&& (0xFFFFFFFF - 64) else sym := by
    intro m hm
    unfold keydown_code
    rw [keysym_code_printable K sym hlo hhi, apply_modifiers_below_bias K sym m hk hlt hm]
  refine ⟨fun hc => ?_, fun hc => ?_, fun mod2 h2 hiff => ?_, ?_⟩
  · have e : keydown_code K sym mod = sym &&& (0xFFFFFFFF - 64) := by rw [key mod halt, if_pos hc]
    refine ⟨e, fun i => ?_⟩
    rw [e, Nat.testBit_and, testBit_not_64]
    cases hb : sym.testBit i
    · rfl
    · have hi : i < 32 := by
        by_contra hge
        have h1 : sym < 2 ^ i :=
          lt_of_lt_of_le (by omega : sym < 2 ^ 7) (Nat.pow_le_pow_right (by norm_num) (by omega))
        rw [Nat.testBit_lt_two_pow h1] at hb
        exact Bool.noConfusion hb
      simp [hi]
  · rw [key mod halt, if_neg (by simpa using hc)]
  · rw [key mod2 h2, key mod halt]
    by_cases hc : mod &&& KMOD_CTRL ≠ 0
    · rw [if_pos hc, if_pos (hiff.2 hc)]
    · rw [if_neg hc, if_neg (fun h => hc (hiff.1 h))]
  · unfold keydown_code
    rw [keysym_code_printable K 0x41 (by norm_num) (by norm_num),
      apply_modifiers_below_bias K 0x41 0x40 (by norm_num) (by omega) (by decide)]
    decide

/-- Witness for C6: under the sample header, the symbol 0x41 with left CTRL and
left SHIFT held (modifier state 0x41) has the code 0x01. -/
theorem keydown_code_printable_witness :
    keydown_code Keys.sample 0x41 0x41 = 0x41 &&& (0xFFFFFFFF - 64) ∧
    keydown_code Keys.sample 0x41 0x41 = 0x01 :=
  ⟨((keydown_code_printable Keys.sample 0x41 0x41 (by decide) (by decide) (by decide)
      (by decide)).1 (by decide)).1, by decide⟩

/-- The modifier composition, one case for each range: `kc1` is the code with
the ALT flag composed. -/
theorem apply_modifiers_eq (K : Keys) (kc mod : Nat) (hk : kc ≠ 0) :
    apply_modifiers K kc mod =
      if K.KEY_BIAS ≤ (if mod &&& KMOD_ALT ≠ 0 then kc ||| K.KEY_ALT else kc) then
        ((if mod &&& KMOD_ALT ≠ 0 then kc ||| K.KEY_ALT else kc) |||
          (if mod &&& KMOD_CTRL ≠ 0 then K.KEY_CTRL else 0)) |||
          (if mod &&& KMOD_SHIFT ≠ 0 then K.KEY_SHIFT else 0)
      else if mod &&& KMOD_CTRL ≠ 0 then
        (if mod &&& KMOD_ALT ≠ 0 then kc ||| K.KEY_ALT else kc) &&& (0xFFFFFFFF - 64)
      else (if mod &&& KMOD_ALT ≠ 0 then kc ||| K.KEY_ALT else kc) := by
  simp only [apply_modifiers, hk, ne_eq, not_false_eq_true, if_true, ge_iff_le]
  split_ifs <;> simp

theorem le_or_left (a b : Nat) : a ≤ a ||| b := by
  apply Nat.le_of_testBit
  intro i hi
  simp [hi]

/-- Claim C8.  For a key-down event whose base mapping gives a non-zero code,
under a header whose ALT flag fits an `int` and does not contain bit 6 (the bit
that CTRL clears on printable codes): if ALT is held, every bit of `KEY_ALT` is
set in the computed code, in the printable range as well as in the special
range and whatever the state of CTRL and SHIFT; and when the computed code is
in the special range (at least `KEY_BIAS`), it is the base code with the flags
of the held modifiers among ALT, CTRL and SHIFT composed by OR, so that every
bit of `KEY_CTRL` is set when CTRL is held and every bit of `KEY_SHIFT` when
SHIFT is held.  A code returned for the event is the computed code. -/
theorem keydown_code_modifier_flags (K : Keys) (sym mod : Nat)
    (hbase : keysym_code K sym ≠ 0)
    (h64 : K.KEY_ALT &&& 64 = 0) (hint : K.KEY_ALT < 2 ^ 31) :
    (mod &&& KMOD_ALT ≠ 0 → keydown_code K sym mod &&& K.KEY_ALT = K.KEY_ALT) ∧
    (K.KEY_BIAS ≤ keydown_code K sym mod →
      keydown_code K sym mod =
        ((if mod &&& KMOD_ALT ≠ 0 then keysym_code K sym ||| K.KEY_ALT else keysym_code K sym) |||
          (if mod &&& KMOD_CTRL ≠ 0 then K.KEY_CTRL else 0)) |||
          (if mod &&& KMOD_SHIFT ≠ 0 then K.KEY_SHIFT else 0) ∧
      (mod &&& KMOD_CTRL ≠ 0 → keydown_code K sym mod &&& K.KEY_CTRL = K.KEY_CTRL) ∧
      (mod &&& KMOD_SHIFT ≠ 0 → keydown_code K sym mod &&& K.KEY_SHIFT = K.KEY_SHIFT)) ∧
    (∀ (E : Env) (s s1 : World) (k : Nat),
      handle_event K E (SDL_Event.SDL_KEYDOWN sym mod) s = Step.ret k s1 →
      k = keydown_code K sym mod) := by
  refine ⟨?_, ?_, fun E s s1 k hr => ?_⟩
  rotate_left 2
  · simp only [handle_event] at hr
    split_ifs at hr
    cases hr
    rfl
  all_goals
    unfold keydown_code
    rw [apply_modifiers_eq K _ mod hbase]
    generalize keysym_code K sym = kc
  · intro halt
    simp only [if_pos halt]
    split_ifs
    · exact or_keeps _ _ _ (or_keeps _ _ _ (or_and_self _ _))
    · exact or_keeps _ _ _ (or_keeps _ _ _ (or_and_self _ _))
    · exact or_keeps _ _ _ (or_keeps _ _ _ (or_and_self _ _))
    · exact or_keeps _ _ _ (or_keeps _ _ _ (or_and_self _ _))
    · exact and_not_64_keeps _ _ h64 hint (or_and_self _ _)
    · exact or_and_self _ _
  · intro hge
    by_cases hs : K.KEY_BIAS ≤ (if mod &&& KMOD_ALT ≠ 0 then kc ||| K.KEY_ALT else kc)
    · rw [if_pos hs]
      refine ⟨rfl, fun hc => ?_, fun hsh => ?_⟩
      · rw [if_pos hc]
        exact or_keeps _ _ _ (or_and_self _ _)
      · rw [if_pos hsh]
        exact or_and_self _ _
    · exfalso
      rw [if_neg hs] at hge
      have hle : ∀ x : Nat, x &&& (0xFFFFFFFF - 64) ≤ x := fun x => Nat.and_le_left
      split_ifs at hge hs with h1 h2 <;>
        first
          | omega
          | (have h9 := hle (kc ||| K.KEY_ALT); omega)
          | (have h9 := hle kc; omega)

/-- Witness for C8: under the sample header, the symbol 0x61 with left ALT and
left CTRL held (modifier state 0x140) is the printable code 0x21 with the ALT
flag 4096 on it, and `F1` with left ALT, left CTRL and left SHIFT held carries
all three flags. -/
theorem keydown_code_modifier_flags_witness :
    keydown_code Keys.sample 0x61 0x140 &&& Keys.sample.KEY_ALT = Keys.sample.KEY_ALT ∧
    keydown_code Keys.sample 0x61 0x140 = 0x21 + 4096 ∧
    keydown_code Keys.sample SDLK_F1 0x141 &&& Keys.sample.KEY_CTRL = Keys.sample.KEY_CTRL ∧
    keydown_code Keys.sample SDLK_F1 0x141 = 65536 + 1 + 4096 + 8192 + 2048 :=
  ⟨(keydown_code_modifier_flags Keys.sample 0x61 0x140 (by decide) (by decide)
      (by decide)).1 (by decide),
   by decide,
   ((keydown_code_modifier_flags Keys.sample SDLK_F1 0x141 (by decide) (by decide)
      (by decide)).2.1 (by decide)).2.1 (by decide),
   by decide⟩

/-! ## The key-wait loop -/

/-- One iteration of the wait loop on an event that the `switch` leaves by
`break`: the loop condition decides what comes next. -/
theorem getkey_loop_brk (K : Keys) (E : Env) (timeout_ms tick_target : Int) (fuel : Nat)
    (s s1 s2 : World) (e : SDL_Event)
    (hres : ¬ (s.suppress_resize = 0 ∧ s.resize_queued ≠ 0))
    (hwait : SDL_WaitEvent (if timeout_ms = 0 then s else (SDL_GetTicks E s).2)
      = some (some e, s1))
    (hbrk : handle_event K E e s1 = Step.brk s2) :
    getkey_loop K E timeout_ms tick_target (fuel + 1) s =
      if timeout_ms = 0 then getkey_loop K E timeout_ms tick_target fuel s2
      else if ((SDL_GetTicks E s2).1 : Int) < tick_target then
        getkey_loop K E timeout_ms tick_target fuel (SDL_GetTicks E s2).2
      else some (K.KEY_SILENCE + K.KEY_BIAS, (SDL_GetTicks E s2).2) := by
  rw [getkey_loop, if_neg hres]
  simp only [hwait, hbrk]

/-- One iteration of the wait loop on an event that makes the `switch`
return. -/
theorem getkey_loop_ret (K : Keys) (E : Env) (timeout_ms tick_target : Int) (fuel : Nat)
    (s s1 s2 : World) (e : SDL_Event) (k : Nat)
    (hres : ¬ (s.suppress_resize = 0 ∧ s.resize_queued ≠ 0))
    (hwait : SDL_WaitEvent (if timeout_ms = 0 then s else (SDL_GetTicks E s).2)
      = some (some e, s1))
    (hret : handle_event K E e s1 = Step.ret k s2) :
    getkey_loop K E timeout_ms tick_target (fuel + 1) s = some (k, s2) := by
  rw [getkey_loop, if_neg hres]
  simp only [hwait, hret]

/-- A wait that finds a key-down event at the head of the queue delivers it and
changes nothing else. -/
theorem SDL_WaitEvent_keydown (s : World) (sym mod : Nat) (rest : List (Option SDL_Event))
    (hev : s.events = some (SDL_Event.SDL_KEYDOWN sym mod) :: rest) :
    SDL_WaitEvent s = some (some (SDL_Event.SDL_KEYDOWN sym mod), { s with events := rest }) := by
  simp only [SDL_WaitEvent, hev]

/-- Claim C7.  A key-down event that translates to no key does not make the
wait loop return.  For each of the twelve modifier symbols and every modifier
state the computed code is 0; so it is for the symbol 0x40 with CTRL held and
ALT not held, under a header whose bias lies above 0x40.  Whenever the computed
code is 0 the `switch` is left by `break` with the state as it was, and the
iteration of the wait loop that took the event from the queue goes on to the
loop condition: the next iteration when the timeout is 0; otherwise one more
clock reading, then the next iteration below the deadline and the silence
signal from it on.  A key-down event never makes the `switch` return 0. -/
theorem keydown_without_code_discarded (K : Keys) (E : Env) (sym mod : Nat)
    (timeout_ms tick_target : Int) (fuel : Nat) (s s1 : World)
    (rest : List (Option SDL_Event))
    (hbias : 0x40 < K.KEY_BIAS)
    (hres : ¬ (s.suppress_resize = 0 ∧ s.resize_queued ≠ 0))
    (hev : s.events = some (SDL_Event.SDL_KEYDOWN sym mod) :: rest)
    (hs1 : s1 = { (if timeout_ms = 0 then s else (SDL_GetTicks E s).2) with events := rest }) :
    (is_modifier_key sym → keydown_code K sym mod = 0) ∧
    (mod &&& KMOD_CTRL ≠ 0 → mod &&& KMOD_ALT = 0 → keydown_code K 0x40 mod = 0) ∧
    (keydown_code K sym mod = 0 →
      handle_event K E (SDL_Event.SDL_KEYDOWN sym mod) s1 = Step.brk s1 ∧
      getkey_loop K E timeout_ms tick_target (fuel + 1) s =
        if timeout_ms = 0 then getkey_loop K E timeout_ms tick_target fuel s1
        else if ((SDL_GetTicks E s1).1 : Int) < tick_target then
          getkey_loop K E timeout_ms tick_target fuel (SDL_GetTicks E s1).2
        else some (K.KEY_SILENCE + K.KEY_BIAS, (SDL_GetTicks E s1).2)) ∧
    (∀ k s2, handle_event K E (SDL_Event.SDL_KEYDOWN sym mod) s1 = Step.ret k s2 →
      k ≠ 0 ∧ k = keydown_code K sym mod ∧ s2 = s1) := by
  refine ⟨fun hm => ?_, fun hc ha => ?_, fun h0 => ?_, fun k s2 hr => ?_⟩
  · unfold keydown_code
    rw [keysym_code_modifier K sym hm, apply_modifiers_zero]
  · unfold keydown_code
    rw [keysym_code_printable K 0x40 (by norm_num) (by norm_num),
      apply_modifiers_below_bias K 0x40 mod (by norm_num) hbias ha, if_pos hc]
    decide
  · have hb : handle_event K E (SDL_Event.SDL_KEYDOWN sym mod) s1 = Step.brk s1 := by
      simp only [handle_event, h0, ne_eq, not_true_eq_false, if_false]
    refine ⟨hb, getkey_loop_brk K E timeout_ms tick_target fuel s s1 s1 _ hres ?_ hb⟩
    rw [hs1]
    apply SDL_WaitEvent_keydown
    split_ifs
    · exact hev
    · exact hev
  · simp only [handle_event] at hr
    split_ifs at hr with h0
    cases hr
    exact ⟨h0, rfl, rfl⟩

/-- Witness for C7: under the sample header, a wait without timeout that finds
left ALT pressed (with the ALT modifier bit set) and then a timeout in the
queue discards the key and goes on to the next iteration. -/
theorem keydown_without_code_discarded_witness :
    keydown_code Keys.sample SDLK_LALT 0x100 = 0 ∧
    keydown_code Keys.sample 0x40 0x40 = 0 ∧
    getkey_loop Keys.sample Env.sample 0 0 2
        { World.started with events := [some (SDL_Event.SDL_KEYDOWN SDLK_LALT 0x100), none] }
      = getkey_loop Keys.sample Env.sample 0 0 1 { World.started with events := [none] } :=
  have h := keydown_without_code_discarded Keys.sample Env.sample SDLK_LALT 0x100 0 0 1
    { World.started with events := [some (SDL_Event.SDL_KEYDOWN SDLK_LALT 0x100), none] }
    { World.started with events := [none] } [none] (by decide) (by decide) rfl rfl
  ⟨h.1 (by decide),
   (keydown_without_code_discarded Keys.sample Env.sample 0x40 0x40 0 0 1
      { World.started with events := [some (SDL_Event.SDL_KEYDOWN 0x40 0x40), none] }
      { World.started with events := [none] } [none] (by decide) (by decide) rfl rfl).2.1
      (by decide) (by decide),
   (h.2.2.1 (h.1 (by decide))).2⟩

/-! ## The full redraw -/

theorem sdl_hook_update_eq (E : Env) (y x : Int) (s : World) :
    sdl_hook_update E y x s = { s with calls := s.calls ++ cell_calls E y x } := rfl

theorem updated_cells_cell_calls (E : Env) (y x : Int) :
    updated_cells (cell_calls E y x) = [(y, x)] := rfl

theorem host_resizes_cell_calls (E : Env) (y x : Int) :
    host_resizes (cell_calls E y x) = [] := rfl

/-- The inner loop draws the cells of row `j` from column `i` up to the grid
width, in order, and leaves when the counter reaches the width: `n` is the
distance from the counter to the width. -/
theorem fullredraw_row_eq (E : Env) (j : Int) :
    ∀ (n : Nat) (i : Int) (s : World), i + n = s.winwidth →
      fullredraw_row E j i s =
        ((List.range n).map fun k : Nat => (j, i + (k : Int))).foldl
          (fun st c => sdl_hook_update E c.1 c.2 st) s := by
  intro n
  induction n with
  | zero =>
    intro i s h
    have hge : ¬ i < s.winwidth := by
      simp only [Nat.cast_zero, add_zero] at h
      omega
    rw [fullredraw_row, dif_neg hge]
    rfl
  | succ n ih =>
    intro i s h
    have hlt : i < s.winwidth := by omega
    rw [fullredraw_row, dif_pos hlt, ih (i + 1) (sdl_hook_update E j i s) (by
      rw [sdl_hook_update_eq]; show i + 1 + (n : Int) = s.winwidth; omega)]
    rw [List.range_succ_eq_map, List.map_cons, List.foldl_cons, List.map_map]
    simp only [Nat.cast_zero, add_zero]
    congr 1
    apply List.map_congr_left
    intro k _
    simp only [Function.comp, Nat.succ_eq_add_one, Nat.cast_add, Nat.cast_one]
    congr 1
    omega

/-- Drawing a list of cells one after the other only appends their requests. -/
theorem foldl_update_eq (E : Env) (cs : List (Int × Int)) :
    ∀ s : World, cs.foldl (fun st c => sdl_hook_update E c.1 c.2 st) s =
      { s with calls := s.calls ++ cs.flatMap fun c => cell_calls E c.1 c.2 } := by
  induction cs with
  | nil => intro s; simp
  | cons c cs ih =>
    intro s
    rw [List.foldl_cons, ih, sdl_hook_update_eq]
    simp [List.flatMap_cons, List.append_assoc]

/-- The outer loop draws the rows from `j` up to the grid height, in order,
each from column 0 to the grid width, and leaves when the counter reaches the
height: `n` is the distance from the counter to the height. -/
theorem fullredraw_rows_eq (E : Env) :
    ∀ (n : Nat) (j : Int) (s : World), 0 ≤ s.winwidth → j + n = s.winheight →
      fullredraw_rows E j s =
        ((List.range n).flatMap fun k : Nat =>
            (List.range s.winwidth.toNat).map fun i : Nat => (j + (k : Int), (i : Int))).foldl
          (fun st c => sdl_hook_update E c.1 c.2 st) s := by
  intro n
  induction n with
  | zero =>
    intro j s _ h
    have hge : ¬ j < s.winheight := by
      simp only [Nat.cast_zero, add_zero] at h
      omega
    rw [fullredraw_rows, dif_neg hge]
    rfl
  | succ n ih =>
    intro j s hw h
    have hlt : j < s.winheight := by omega
    have hrow := fullredraw_row_eq E j s.winwidth.toNat 0 s (by omega)
    rw [fullredraw_rows, dif_pos hlt, hrow]
    have hw1 : ∀ cs : List (Int × Int),
        (cs.foldl (fun st c => sdl_hook_update E c.1 c.2 st) s).winwidth = s.winwidth := by
      intro cs; rw [foldl_update_eq]
    have hh1 : ∀ cs : List (Int × Int),
        (cs.foldl (fun st c => sdl_hook_update E c.1 c.2 st) s).winheight = s.winheight := by
      intro cs; rw [foldl_update_eq]
    rw [ih (j + 1) _ (by rw [hw1]; exact hw) (by rw [hh1]; omega), hw1]
    rw [List.range_succ_eq_map, List.flatMap_cons, List.foldl_append]
    simp only [Nat.cast_zero, add_zero, zero_add, List.flatMap_map]
    congr 1
    apply List.flatMap_congr
    intro k _
    apply List.map_congr_left
    intro i _
    simp only [Function.comp, Nat.succ_eq_add_one, Nat.cast_add, Nat.cast_one]
    congr 1
    omega

/-- The full redraw is `sdl_hook_update` on each cell of the grid in row-major
order. -/
theorem sdl_hook_fullredraw_eq (E : Env) (s : World)
    (hw : 0 ≤ s.winwidth) (hh : 0 ≤ s.winheight) :
    sdl_hook_fullredraw E s =
      (grid_cells s.winheight.toNat s.winwidth.toNat).foldl
        (fun st c => sdl_hook_update E c.1 c.2 st) s := by
  unfold sdl_hook_fullredraw
  rw [fullredraw_rows_eq E s.winheight.toNat 0 s hw (by omega)]
  simp only [zero_add]
  rfl

theorem grid_cells_length (h w : Nat) : (grid_cells h w).length = h * w := by
  unfold grid_cells
  induction h with
  | zero => simp
  | succ n ih =>
    rw [List.range_succ, List.flatMap_append, List.length_append, ih]
    simp [Nat.succ_mul]

theorem mem_grid_cells (h w : Nat) (j i : Int) :
    (j, i) ∈ grid_cells h w ↔ 0 ≤ j ∧ j < h ∧ 0 ≤ i ∧ i < w := by
  unfold grid_cells
  simp only [List.mem_flatMap, List.mem_map, List.mem_range, Prod.mk.injEq]
  constructor
  · rintro ⟨a, ha, b, hb, rfl, rfl⟩
    omega
  · rintro ⟨h1, h2, h3, h4⟩
    exact ⟨j.toNat, by omega, i.toNat, by omega, by omega, by omega⟩

/-- Row-major order: each cell comes before every cell of a later row and every
later cell of its own row. -/
theorem grid_cells_ordered (h w : Nat) :
    (grid_cells h w).Pairwise fun a b => a.1 < b.1 ∨ (a.1 = b.1 ∧ a.2 < b.2) := by
  unfold grid_cells
  rw [List.pairwise_flatMap]
  constructor
  · intro j _
    rw [List.pairwise_map]
    exact (List.pairwise_lt_range w).imp fun hab => Or.inr ⟨rfl, Int.ofNat_lt.2 hab⟩
  · refine (List.pairwise_lt_range h).imp ?_
    intro a b hab x hx y hy
    simp only [List.mem_map] at hx hy
    obtain ⟨_, _, rfl⟩ := hx
    obtain ⟨_, _, rfl⟩ := hy
    exact Or.inl (Int.ofNat_lt.2 hab)

theorem grid_cells_nodup (h w : Nat) : (grid_cells h w).Nodup := by
  refine (grid_cells_ordered h w).imp ?_
  intro a b hab heq
  subst heq
  omega

theorem updated_cells_append (xs ys : List Call) :
    updated_cells (xs ++ ys) = updated_cells xs ++ updated_cells ys := by
  unfold updated_cells
  rw [List.filterMap_append]

theorem host_resizes_append (xs ys : List Call) :
    host_resizes (xs ++ ys) = host_resizes xs ++ host_resizes ys := by
  unfold host_resizes
  rw [List.filterMap_append]

theorem updated_cells_flatMap (E : Env) (cs : List (Int × Int)) :
    updated_cells (cs.flatMap fun c => cell_calls E c.1 c.2) = cs := by
  induction cs with
  | nil => rfl
  | cons c cs ih =>
    rw [List.flatMap_cons, updated_cells_append, ih, updated_cells_cell_calls]
    rfl

theorem host_resizes_flatMap (E : Env) (cs : List (Int × Int)) :
    host_resizes (cs.flatMap fun c => cell_calls E c.1 c.2) = [] := by
  induction cs with
  | nil => rfl
  | cons c cs ih =>
    rw [List.flatMap_cons, host_resizes_append, ih, host_resizes_cell_calls]
    rfl

/-- Claim C9.  For every grid size with both dimensions non-negative,
`sdl_hook_fullredraw` is `sdl_hook_update` called on the cells of the grid in
row-major order, and the host is notified of exactly these cells in that order.
The cells are all the (row j, column i) with `0 ≤ j < winheight` and
`0 ≤ i < winwidth` and no others, each once, every cell before the cells of
later rows and before the later cells of its own row; their number is
`winwidth * winheight`, 1920 for an 80x24 grid.  The grid size is not
modified. -/
theorem sdl_hook_fullredraw_cells (E : Env) (s : World)
    (hw : 0 ≤ s.winwidth) (hh : 0 ≤ s.winheight) :
    sdl_hook_fullredraw E s =
      (grid_cells s.winheight.toNat s.winwidth.toNat).foldl
        (fun st c => sdl_hook_update E c.1 c.2 st) s ∧
    updated_cells (sdl_hook_fullredraw E s).calls =
      updated_cells s.calls ++ grid_cells s.winheight.toNat s.winwidth.toNat ∧
    (∀ j i : Int, (j, i) ∈ grid_cells s.winheight.toNat s.winwidth.toNat ↔
      0 ≤ j ∧ j < s.winheight ∧ 0 ≤ i ∧ i < s.winwidth) ∧
    (grid_cells s.winheight.toNat s.winwidth.toNat).Nodup ∧
    ((grid_cells s.winheight.toNat s.winwidth.toNat).Pairwise
      fun a b => a.1 < b.1 ∨ (a.1 = b.1 ∧ a.2 < b.2)) ∧
    ((grid_cells s.winheight.toNat s.winwidth.toNat).length : Int)
      = s.winwidth * s.winheight ∧
    (s.winwidth = 80 → s.winheight = 24 →
      (grid_cells s.winheight.toNat s.winwidth.toNat).length = 1920) ∧
    (sdl_hook_fullredraw E s).winwidth = s.winwidth ∧
    (sdl_hook_fullredraw E s).winheight = s.winheight := by
  have heq := sdl_hook_fullredraw_eq E s hw hh
  refine ⟨heq, ?_, ?_, grid_cells_nodup _ _, grid_cells_ordered _ _, ?_, ?_, ?_, ?_⟩
  · rw [heq, foldl_update_eq]
    show updated_cells (s.calls ++ _) = _
    rw [updated_cells_append, updated_cells_flatMap]
  · intro j i
    rw [mem_grid_cells]
    omega
  · rw [grid_cells_length]
    push_cast
    rw [Int.toNat_of_nonneg hw, Int.toNat_of_nonneg hh, mul_comm]
  · intro h1 h2
    rw [grid_cells_length, h1, h2]
    rfl
  · rw [heq, foldl_update_eq]
  · rw [heq, foldl_update_eq]

/-- Witness for C9: the 80x24 grid, 1920 cells. -/
theorem sdl_hook_fullredraw_cells_witness :
    (updated_cells (sdl_hook_fullredraw Env.sample
        { World.started with winwidth := 80, winheight := 24 }).calls).length = 1920 ∧
    (sdl_hook_fullredraw Env.sample
        { World.started with winwidth := 80, winheight := 24 }).winwidth = 80 :=
  have h := sdl_hook_fullredraw_cells Env.sample
    { World.started with winwidth := 80, winheight := 24 } (by decide) (by decide)
  ⟨by rw [h.2.1]; exact h.2.2.2.2.2.2.1 rfl rfl, h.2.2.2.2.2.2.2.1⟩

/-! ## Hangup -/

/-- With hangup recorded the key request returns before its loop, one clock
reading after it was entered. -/
theorem hangup_returns_at_once (K : Keys) (E : Env) (timeout_ms : Int) (s : World)
    (hh : s.hangup_mode ≠ 0) :
    sdl_hook_getkeyorcodepoint K E timeout_ms s =
      some (K.KEY_HANGUP + K.KEY_BIAS, { s with nticks := s.nticks + 1 }) := by
  unfold sdl_hook_getkeyorcodepoint SDL_GetTicks
  simp only [ne_eq, hh, not_false_eq_true, if_true]

/-- Claim C1.  In every state with the hangup flag set, and for every timeout
(zero, negative or positive), `sdl_hook_getkeyorcodepoint` returns
`KEY_HANGUP + KEY_BIAS` and the state it leaves is the state it found but for
the count of clock readings, which rises by the one reading of line 146: no
outcome is taken from the event queue, no request is made of SDL or the host,
and the hangup flag, the pending-resize flag, the suppression flag, the grid
size and the pixel size are as they were.  A pending resize is not reported
first. -/
theorem getkey_hangup (K : Keys) (E : Env) (timeout_ms : Int) (s : World)
    (hh : s.hangup_mode ≠ 0) :
    sdl_hook_getkeyorcodepoint K E timeout_ms s =
      some (K.KEY_HANGUP + K.KEY_BIAS, { s with nticks := s.nticks + 1 }) ∧
    ∀ k s1, sdl_hook_getkeyorcodepoint K E timeout_ms s = some (k, s1) →
      k = K.KEY_HANGUP + K.KEY_BIAS ∧ s1.events = s.events ∧ s1.calls = s.calls ∧
      s1.hangup_mode = s.hangup_mode ∧ s1.resize_queued = s.resize_queued ∧
      s1.suppress_resize = s.suppress_resize ∧ s1.winwidth = s.winwidth ∧
      s1.winheight = s.winheight ∧ s1.pixw = s.pixw ∧ s1.pixh = s.pixh := by
  have h := hangup_returns_at_once K E timeout_ms s hh
  refine ⟨h, fun k s1 hk => ?_⟩
  rw [h] at hk
  cases hk
  exact ⟨rfl, rfl, rfl, rfl, rfl, rfl, rfl, rfl, rfl, rfl⟩

/-- Witness for C1: hangup recorded, a resize pending and not suppressed, a key
waiting in the queue, timeout -5. -/
theorem getkey_hangup_witness :
    sdl_hook_getkeyorcodepoint Keys.sample Env.sample (-5)
        { World.started with hangup_mode := 1, resize_queued := 1,
                             events := [some (SDL_Event.SDL_KEYDOWN 0x41 0)] }
      = some (Keys.sample.KEY_HANGUP + Keys.sample.KEY_BIAS,
          { World.started with hangup_mode := 1, resize_queued := 1,
                               events := [some (SDL_Event.SDL_KEYDOWN 0x41 0)],
                               nticks := 1 }) :=
  (getkey_hangup Keys.sample Env.sample (-5)
    { World.started with hangup_mode := 1, resize_queued := 1,
                         events := [some (SDL_Event.SDL_KEYDOWN 0x41 0)] } (by decide)).1

/-! ## Resize reports and their suppression -/

theorem Quiet.refl (s : World) : Quiet s s := ⟨rfl, rfl, rfl, fun h => h⟩

theorem Quiet.trans {s s1 s2 : World} (h1 : Quiet s s1) (h2 : Quiet s1 s2) : Quiet s s2 :=
  ⟨h2.1.trans h1.1, h2.2.1.trans h1.2.1, h2.2.2.1.trans h1.2.2.1,
   fun h => h2.2.2.2 (h1.2.2.2 h)⟩

theorem update_window_sizes_quiet (s : World) : Quiet s (update_window_sizes s) := by
  rw [update_window_sizes_eq]
  refine ⟨rfl, ?_, rfl, ?_⟩
  · show host_resizes (s.calls ++ _) = _
    rw [host_resizes_append, host_resizes_append]
    split_ifs <;> simp [host_resizes]
  · intro h
    simp only [reconciled]
    split_ifs
    · decide
    · exact h

/-- In every state and from every column, the inner loop of the redraw is
`sdl_hook_update` on some list of cells. -/
theorem fullredraw_row_foldl (E : Env) (j : Int) :
    ∀ (n : Nat) (i : Int) (s : World), (s.winwidth - i).toNat = n → ∃ cs : List (Int × Int),
      fullredraw_row E j i s = cs.foldl (fun st c => sdl_hook_update E c.1 c.2 st) s := by
  intro n
  induction n with
  | zero =>
    intro i s hn
    rw [fullredraw_row, dif_neg (by omega)]
    exact ⟨[], rfl⟩
  | succ n ih =>
    intro i s hn
    rw [fullredraw_row]
    split_ifs
    · obtain ⟨cs, hcs⟩ := ih (i + 1) (sdl_hook_update E j i s) (by
        rw [sdl_hook_update_eq]
        show (s.winwidth - (i + 1)).toNat = n
        omega)
      exact ⟨(j, i) :: cs, by rw [hcs]; rfl⟩
    · exact ⟨[], rfl⟩

/-- In every state and from every row, the outer loop of the redraw is
`sdl_hook_update` on some list of cells. -/
theorem fullredraw_rows_foldl (E : Env) :
    ∀ (n : Nat) (j : Int) (s : World), (s.winheight - j).toNat = n → ∃ cs : List (Int × Int),
      fullredraw_rows E j s = cs.foldl (fun st c => sdl_hook_update E c.1 c.2 st) s := by
  intro n
  induction n with
  | zero =>
    intro j s hn
    rw [fullredraw_rows, dif_neg (by omega)]
    exact ⟨[], rfl⟩
  | succ n ih =>
    intro j s hn
    rw [fullredraw_rows]
    split_ifs
    · obtain ⟨cs1, h1⟩ := fullredraw_row_foldl E j _ 0 s rfl
      obtain ⟨cs2, h2⟩ := ih (j + 1) (fullredraw_row E j 0 s) (by
        rw [h1, foldl_update_eq]
        show (s.winheight - (j + 1)).toNat = n
        omega)
      exact ⟨cs1 ++ cs2, by rw [h2, h1, List.foldl_append]⟩
    · exact ⟨[], rfl⟩

/-- In every state, the full redraw only appends the requests of cell draws. -/
theorem sdl_hook_fullredraw_frame (E : Env) (s : World) : ∃ cs : List (Int × Int),
    sdl_hook_fullredraw E s =
      { s with calls := s.calls ++ cs.flatMap fun c => cell_calls E c.1 c.2 } := by
  obtain ⟨cs, h⟩ := fullredraw_rows_foldl E _ 0 s rfl
  exact ⟨cs, by unfold sdl_hook_fullredraw; rw [h, foldl_update_eq]⟩

theorem sdl_hook_fullredraw_quiet (E : Env) (s : World) :
    Quiet s (sdl_hook_fullredraw E s) ∧
    (sdl_hook_fullredraw E s).resize_queued = s.resize_queued := by
  obtain ⟨cs, h⟩ := sdl_hook_fullredraw_frame E s
  rw [h]
  refine ⟨⟨rfl, ?_, rfl, fun h => h⟩, rfl⟩
  show host_resizes (s.calls ++ _) = _
  rw [host_resizes_append, host_resizes_flatMap, List.append_nil]

/-- The `switch` of the wait loop reports no resize, returns only the hangup
signal or the code of the key-down event it was given, and touches the
pending-resize flag only on a window event that reports a new size. -/
theorem handle_event_quiet (K : Keys) (E : Env) (e : SDL_Event) (s : World) :
    Quiet s (handle_event K E e s).state ∧
    (is_resize_event e = false →
      (handle_event K E e s).state.resize_queued = s.resize_queued) ∧
    (∀ k s1, handle_event K E e s = Step.ret k s1 →
      k = K.KEY_HANGUP + K.KEY_BIAS ∨
      ∃ sym mod, e = SDL_Event.SDL_KEYDOWN sym mod ∧ k = keydown_code K sym mod) := by
  cases e with
  | SDL_WINDOWEVENT event d1 d2 =>
    have hne2 : is_resize_event (SDL_Event.SDL_WINDOWEVENT event d1 d2) = false →
        ¬ (event = SDL_WINDOWEVENT_RESIZED ∨ event = SDL_WINDOWEVENT_SIZE_CHANGED) := by
      intro hne
      simpa [is_resize_event] using hne
    simp only [handle_event]
    generalize hs1 : (if event = SDL_WINDOWEVENT_RESIZED ∨ event = SDL_WINDOWEVENT_SIZE_CHANGED
      then update_window_sizes s else s) = s1
    have q1 : Quiet s s1 ∧
        (¬ (event = SDL_WINDOWEVENT_RESIZED ∨ event = SDL_WINDOWEVENT_SIZE_CHANGED) →
          s1.resize_queued = s.resize_queued) := by
      rw [← hs1]
      split_ifs with h
      · exact ⟨update_window_sizes_quiet s, fun hn => absurd h hn⟩
      · exact ⟨Quiet.refl s, fun _ => rfl⟩
    generalize hs2 : (if event = SDL_WINDOWEVENT_EXPOSED then sdl_hook_fullredraw E s1 else s1)
      = s2
    have q2 : Quiet s s2 ∧
        (¬ (event = SDL_WINDOWEVENT_RESIZED ∨ event = SDL_WINDOWEVENT_SIZE_CHANGED) →
          s2.resize_queued = s.resize_queued) := by
      rw [← hs2]
      split_ifs
      · exact ⟨q1.1.trans (sdl_hook_fullredraw_quiet E s1).1,
          fun hn => (sdl_hook_fullredraw_quiet E s1).2.trans (q1.2 hn)⟩
      · exact q1
    refine ⟨?_, ?_, ?_⟩
    · split_ifs
      · exact q2.1
      · exact q2.1
    · intro hne
      split_ifs
      · exact q2.2 (hne2 hne)
      · exact q2.2 (hne2 hne)
    · intro k s3 h
      split_ifs at h
      cases h
      exact Or.inl rfl
  | SDL_KEYDOWN sym mod =>
    refine ⟨?_, ?_, ?_⟩
    · simp only [handle_event]
      split_ifs <;> exact Quiet.refl s
    · intro _
      simp only [handle_event]
      split_ifs <;> rfl
    · intro k s1 h
      simp only [handle_event] at h
      split_ifs at h
      cases h
      exact Or.inr ⟨sym, mod, rfl, rfl⟩
  | SDL_QUIT =>
    refine ⟨⟨rfl, rfl, rfl, fun h => h⟩, fun _ => rfl, ?_⟩
    intro k s1 h
    simp only [handle_event] at h
    cases h
    exact Or.inl rfl
  | other =>
    refine ⟨Quiet.refl s, fun _ => rfl, ?_⟩
    intro k s1 h
    simp only [handle_event] at h
    cases h

/-- A wait that returns took the head of the queue and, on a report of a new
size, set the pixel size; nothing else changed. -/
theorem SDL_WaitEvent_some (s s1 : World) (o : Option SDL_Event)
    (h : SDL_WaitEvent s = some (o, s1)) :
    ∃ rest, s.events = o :: rest ∧ s1.events = rest ∧
      s1.suppress_resize = s.suppress_resize ∧ s1.calls = s.calls ∧
      s1.resize_queued = s.resize_queued := by
  unfold SDL_WaitEvent at h
  split at h
  · cases h
  · next rest hev =>
    cases h
    exact ⟨rest, hev, rfl, rfl, rfl, rfl⟩
  · next event d1 d2 rest hev =>
    split_ifs at h <;> cases h <;> exact ⟨rest, hev, rfl, rfl, rfl, rfl⟩
  · next e rest _ hev =>
    cases h
    exact ⟨rest, hev, rfl, rfl, rfl, rfl⟩

theorem no_resize_events_tail (o : Option SDL_Event) (rest : List (Option SDL_Event))
    (h : no_resize_events (o :: rest) = true) : no_resize_events rest = true := by
  simp only [no_resize_events, List.all_cons, Bool.and_eq_true] at h
  exact h.2

theorem no_resize_events_head (e : SDL_Event) (rest : List (Option SDL_Event))
    (h : no_resize_events (some e :: rest) = true) : is_resize_event e = false := by
  simp only [no_resize_events, List.all_cons, Bool.and_eq_true, Bool.not_eq_true'] at h
  exact h.1

/-- The wait loop entered while resize reports are suppressed, or with no resize
pending and no report of a new size in the queue, never takes the branch of
lines 153-158: it notifies the host of no size, leaves the suppression flag and
a set pending-resize flag alone, and what it returns is the hangup signal, the
silence signal or the code of a key-down event of the queue. -/
theorem getkey_loop_no_report (K : Keys) (E : Env) (timeout_ms tick_target : Int) :
    ∀ (fuel : Nat) (s : World) (k : Nat) (s1 : World),
      (s.suppress_resize ≠ 0 ∨ (s.resize_queued = 0 ∧ no_resize_events s.events = true)) →
      getkey_loop K E timeout_ms tick_target fuel s = some (k, s1) →
      s1.suppress_resize = s.suppress_resize ∧
      host_resizes s1.calls = host_resizes s.calls ∧
      (s.resize_queued ≠ 0 → s1.resize_queued ≠ 0) ∧
      (s.suppress_resize = 0 → s1.resize_queued = 0) ∧
      (k = K.KEY_HANGUP + K.KEY_BIAS ∨ k = K.KEY_SILENCE + K.KEY_BIAS ∨
        ∃ sym mod, some (SDL_Event.SDL_KEYDOWN sym mod) ∈ s.events ∧
          k = keydown_code K sym mod) := by
  intro fuel
  induction fuel with
  | zero =>
    intro s k s1 _ hret
    simp only [getkey_loop] at hret
    exact Option.noConfusion hret
  | succ fuel ih =>
    intro s k s1 hI hret
    have hres : ¬ (s.suppress_resize = 0 ∧ s.resize_queued ≠ 0) := by
      rintro ⟨h1, h2⟩
      rcases hI with h | h
      · exact h h1
      · exact h2 h.1
    rw [getkey_loop, if_neg hres] at hret
    generalize hs0 : (if timeout_ms = 0 then s else (SDL_GetTicks E s).2) = s0 at hret
    dsimp only at hret
    have f0 : s0.suppress_resize = s.suppress_resize ∧ s0.calls = s.calls ∧
        s0.events = s.events ∧ s0.resize_queued = s.resize_queued := by
      rw [← hs0]
      split_ifs
      · exact ⟨rfl, rfl, rfl, rfl⟩
      · exact ⟨rfl, rfl, rfl, rfl⟩
    cases hw : SDL_WaitEvent s0 with
    | none =>
      rw [hw] at hret
      exact Option.noConfusion hret
    | some p =>
      obtain ⟨o, s2⟩ := p
      rw [hw] at hret
      obtain ⟨rest, hev, hrest, hsup2, hcalls2, hq2⟩ := SDL_WaitEvent_some s0 s2 o hw
      have hevs : s.events = o :: rest := by rw [← f0.2.2.1, hev]
      have hz : s.suppress_resize = 0 → s.resize_queued = 0 := by
        intro h0
        rcases hI with h | h
        · exact absurd h0 h
        · exact h.1
      cases o with
      | none =>
        dsimp only at hret
        simp only [Option.some.injEq, Prod.mk.injEq] at hret
        obtain ⟨rfl, rfl⟩ := hret
        refine ⟨hsup2.trans f0.1, by rw [hcalls2, f0.2.1], ?_, ?_, Or.inr (Or.inl rfl)⟩
        · intro h; rw [hq2, f0.2.2.2]; exact h
        · intro h; rw [hq2, f0.2.2.2]; exact hz h
      | some e =>
        dsimp only at hret
        have hq := handle_event_quiet K E e s2
        have hkeep : s.resize_queued = 0 ∧ no_resize_events s.events = true →
            (handle_event K E e s2).state.resize_queued = 0 := by
          intro h
          rw [hq.2.1 (no_resize_events_head e rest (hevs ▸ h.2)), hq2, f0.2.2.2]
          exact h.1
        have hflag : s.suppress_resize = 0 →
            (handle_event K E e s2).state.resize_queued = 0 := by
          intro h0
          rcases hI with h | h
          · exact absurd h0 h
          · exact hkeep h
        have hstate : (handle_event K E e s2).state.suppress_resize = s.suppress_resize ∧
            host_resizes (handle_event K E e s2).state.calls = host_resizes s.calls ∧
            (s.resize_queued ≠ 0 → (handle_event K E e s2).state.resize_queued ≠ 0) ∧
            (handle_event K E e s2).state.events = rest := by
          refine ⟨hq.1.1.trans (hsup2.trans f0.1), ?_, ?_, hq.1.2.2.1.trans hrest⟩
          · rw [hq.1.2.1, hcalls2, f0.2.1]
          · intro h
            apply hq.1.2.2.2
            rw [hq2, f0.2.2.2]
            exact h
        cases hh : handle_event K E e s2 with
        | ret k2 s3 =>
          rw [hh] at hret hq hflag hstate
          simp only [Option.some.injEq, Prod.mk.injEq] at hret
          obtain ⟨rfl, rfl⟩ := hret
          refine ⟨hstate.1, hstate.2.1, hstate.2.2.1, hflag, ?_⟩
          rcases hq.2.2 k2 s3 rfl with h | ⟨sym, mod, rfl, h⟩
          · exact Or.inl h
          · exact Or.inr (Or.inr ⟨sym, mod, by rw [hevs]; exact List.mem_cons_self _ _, h⟩)
        | brk s3 =>
          rw [hh] at hret hq hflag hstate hkeep
          simp only [Step.state] at hflag hstate hkeep
          have hI3 : ∀ s4 : World, s4.suppress_resize = s3.suppress_resize →
              s4.resize_queued = s3.resize_queued → s4.events = s3.events →
              (s4.suppress_resize ≠ 0 ∨ (s4.resize_queued = 0 ∧ no_resize_events s4.events = true)) := by
            intro s4 e1 e2 e3
            rcases hI with h | h
            · left; rw [e1, hstate.1]; exact h
            · right
              refine ⟨?_, ?_⟩
              · rw [e2]
                exact hkeep h
              · rw [e3, hstate.2.2.2]
                exact no_resize_events_tail (some e) rest (hevs ▸ h.2)
          have hfin : ∀ s4 : World, s4.suppress_resize = s3.suppress_resize →
              s4.resize_queued = s3.resize_queued → s4.events = s3.events →
              s4.calls = s3.calls →
              (getkey_loop K E timeout_ms tick_target fuel s4 = some (k, s1) ∨
                (k = K.KEY_SILENCE + K.KEY_BIAS ∧ s1 = s4)) →
              s1.suppress_resize = s.suppress_resize ∧
              host_resizes s1.calls = host_resizes s.calls ∧
              (s.resize_queued ≠ 0 → s1.resize_queued ≠ 0) ∧
              (s.suppress_resize = 0 → s1.resize_queued = 0) ∧
              (k = K.KEY_HANGUP + K.KEY_BIAS ∨ k = K.KEY_SILENCE + K.KEY_BIAS ∨
                ∃ sym mod, some (SDL_Event.SDL_KEYDOWN sym mod) ∈ s.events ∧
                  k = keydown_code K sym mod) := by
            intro s4 e1 e2 e3 e4 hor
            rcases hor with hrec | ⟨rfl, rfl⟩
            · obtain ⟨r1, r2, r3, r4, r5⟩ := ih s4 k s1 (hI3 s4 e1 e2 e3) hrec
              refine ⟨by rw [r1, e1, hstate.1], by rw [r2, e4, hstate.2.1], ?_, ?_, ?_⟩
              · intro h
                apply r3
                rw [e2]
                exact hstate.2.2.1 h
              · intro h
                apply r4
                rw [e1, hstate.1]
                exact h
              · rcases r5 with h | h | ⟨sym, mod, hm, h⟩
                · exact Or.inl h
                · exact Or.inr (Or.inl h)
                · refine Or.inr (Or.inr ⟨sym, mod, ?_, h⟩)
                  rw [hevs]
                  rw [e3, hstate.2.2.2] at hm
                  exact List.mem_cons_of_mem _ hm
            · refine ⟨by rw [e1, hstate.1], by rw [e4, hstate.2.1], ?_, ?_, Or.inr (Or.inl rfl)⟩
              · intro h
                rw [e2]
                exact hstate.2.2.1 h
              · intro h
                rw [e2]
                exact hflag h
          simp only at hret
          split_ifs at hret with ht hlt
          · exact hfin s3 rfl rfl rfl rfl (Or.inl hret)
          · exact hfin (SDL_GetTicks E s3).2 rfl rfl rfl rfl (Or.inl hret)
          · simp only [Option.some.injEq, Prod.mk.injEq] at hret
            exact hfin (SDL_GetTicks E s3).2 rfl rfl rfl rfl (Or.inr ⟨hret.1.symm, hret.2.symm⟩)

/-- The iterations that `sdl_hook_getkeyorcodepoint` allows its loop are
enough: with more iterations than outcomes in the queue, one more changes
nothing, so the loop never stops for want of an iteration. -/
theorem getkey_loop_fuel (K : Keys) (E : Env) (timeout_ms tick_target : Int) :
    ∀ (fuel : Nat) (s : World), s.events.length < fuel →
      getkey_loop K E timeout_ms tick_target (fuel + 1) s =
        getkey_loop K E timeout_ms tick_target fuel s := by
  intro fuel
  induction fuel with
  | zero => intro s h; exact absurd h (Nat.not_lt_zero _)
  | succ fuel ih =>
    intro s hlen
    conv_lhs => rw [getkey_loop]
    conv_rhs => rw [getkey_loop]
    by_cases hres : s.suppress_resize = 0 ∧ s.resize_queued ≠ 0
    · rw [if_pos hres, if_pos hres]
    · rw [if_neg hres, if_neg hres]
      dsimp only
      generalize hs0 : (if timeout_ms = 0 then s else (SDL_GetTicks E s).2) = s0
      have f0 : s0.events = s.events := by
        rw [← hs0]
        split_ifs <;> rfl
      cases hw : SDL_WaitEvent s0 with
      | none => rfl
      | some p =>
        obtain ⟨o, s2⟩ := p
        obtain ⟨rest, hev, hrest, _, _, _⟩ := SDL_WaitEvent_some s0 s2 o hw
        cases o with
        | none => rfl
        | some e =>
          dsimp only
          have hq := (handle_event_quiet K E e s2).1.2.2.1
          cases hh : handle_event K E e s2 with
          | ret k2 s3 => rfl
          | brk s3 =>
            rw [hh] at hq
            simp only [Step.state] at hq
            have hl : s3.events.length < fuel := by
              rw [hq, hrest]
              rw [← f0, hev, List.length_cons] at hlen
              omega
            dsimp only
            split_ifs
            · exact ih s3 hl
            · exact ih (SDL_GetTicks E s3).2 hl
            · rfl

/-- Claim C5.  The three signals of the header are taken to be distinct from
each other, and no key waiting in the queue to translate to the code of the
resize signal.

While suppression is active, whatever the timeout and whenever the key request
returns, it does not return `KEY_RESIZE + KEY_BIAS`, makes no set-size
notification to the host, does not clear a pending-resize flag that is set, and
leaves suppression active.

With suppression ended, no hangup recorded and a resize pending, the key
request returns `KEY_RESIZE + KEY_BIAS`; the event queue is as it was, the flag
is cleared, the grid is the one derived from the current pixel size, and the
last request made is the host's set-size notification with that grid height and
width, the only notification added.

With suppression ended and no resize pending, a key request whose queue holds
no report of a new window size returns no resize signal, notifies the host of
no size and leaves the flag clear: the signal is not repeated. -/
theorem resize_report_deferred (K : Keys) (E : Env) (timeout_ms : Int) (s : World)
    (hH : K.KEY_HANGUP ≠ K.KEY_RESIZE) (hS : K.KEY_SILENCE ≠ K.KEY_RESIZE)
    (hkeys : ∀ sym mod, some (SDL_Event.SDL_KEYDOWN sym mod) ∈ s.events →
      keydown_code K sym mod ≠ K.KEY_RESIZE + K.KEY_BIAS) :
    (s.suppress_resize ≠ 0 →
      ∀ k s1, sdl_hook_getkeyorcodepoint K E timeout_ms s = some (k, s1) →
        k ≠ K.KEY_RESIZE + K.KEY_BIAS ∧
        host_resizes s1.calls = host_resizes s.calls ∧
        (s.resize_queued ≠ 0 → s1.resize_queued ≠ 0) ∧
        s1.suppress_resize = s.suppress_resize) ∧
    (s.suppress_resize = 0 → s.hangup_mode = 0 → s.resize_queued ≠ 0 →
      ∃ s1, sdl_hook_getkeyorcodepoint K E timeout_ms s
          = some (K.KEY_RESIZE + K.KEY_BIAS, s1) ∧
        s1.events = s.events ∧ s1.resize_queued = 0 ∧
        s1.winwidth = derived_width s.pixw ∧ s1.winheight = derived_height s.pixh ∧
        s1.calls.getLast? = some (Call.uncursed_rhook_setsize s1.winheight s1.winwidth) ∧
        host_resizes s1.calls = host_resizes s.calls ++ [(s1.winheight, s1.winwidth)]) ∧
    (s.suppress_resize = 0 → s.resize_queued = 0 → no_resize_events s.events = true →
      ∀ k s1, sdl_hook_getkeyorcodepoint K E timeout_ms s = some (k, s1) →
        k ≠ K.KEY_RESIZE + K.KEY_BIAS ∧
        host_resizes s1.calls = host_resizes s.calls ∧
        s1.resize_queued = 0) := by
  have hne : ∀ k : Nat,
      (k = K.KEY_HANGUP + K.KEY_BIAS ∨ k = K.KEY_SILENCE + K.KEY_BIAS ∨
        ∃ sym mod, some (SDL_Event.SDL_KEYDOWN sym mod) ∈ s.events ∧
          k = keydown_code K sym mod) → k ≠ K.KEY_RESIZE + K.KEY_BIAS := by
    rintro k (h | h | ⟨sym, mod, hm, h⟩) heq
    · exact hH (by omega)
    · exact hS (by omega)
    · exact hkeys sym mod hm (h ▸ heq)
  have hquiet : (s.suppress_resize ≠ 0 ∨ (s.resize_queued = 0 ∧ no_resize_events s.events = true)) →
      ∀ k s1, sdl_hook_getkeyorcodepoint K E timeout_ms s = some (k, s1) →
        k ≠ K.KEY_RESIZE + K.KEY_BIAS ∧
        host_resizes s1.calls = host_resizes s.calls ∧
        (s.resize_queued ≠ 0 → s1.resize_queued ≠ 0) ∧
        s1.suppress_resize = s.suppress_resize ∧
        (s.suppress_resize = 0 → s1.resize_queued = s.resize_queued) := by
    intro hI k s1 hret
    unfold sdl_hook_getkeyorcodepoint at hret
    dsimp only at hret
    split_ifs at hret with hh
    · simp only [Option.some.injEq, Prod.mk.injEq] at hret
      obtain ⟨rfl, rfl⟩ := hret
      exact ⟨hne _ (Or.inl rfl), rfl, fun h => h, rfl, fun _ => rfl⟩
    · obtain ⟨r1, r2, r3, r4, r5⟩ :=
        getkey_loop_no_report K E timeout_ms _ _ (SDL_GetTicks E s).2 k s1 hI hret
      refine ⟨hne k r5, r2, r3, r1, fun h0 => ?_⟩
      rw [r4 h0]
      rcases hI with h | h
      · exact absurd h0 h
      · exact h.1.symm
  refine ⟨fun hsup k s1 hret => ?_, fun hsup hhang hq => ?_, fun hsup hq hev k s1 hret => ?_⟩
  · obtain ⟨r1, r2, r3, r4, _⟩ := hquiet (Or.inl hsup) k s1 hret
    exact ⟨r1, r2, r3, r4⟩
  · have hq1 := update_window_sizes_quiet (SDL_GetTicks E s).2
    refine ⟨{ update_window_sizes (SDL_GetTicks E s).2 with
        resize_queued := 0
        calls := (update_window_sizes (SDL_GetTicks E s).2).calls ++
          [Call.uncursed_rhook_setsize (update_window_sizes (SDL_GetTicks E s).2).winheight
            (update_window_sizes (SDL_GetTicks E s).2).winwidth] },
      ?_, hq1.2.2.1, rfl, ?_, ?_, ?_, ?_⟩
    · unfold sdl_hook_getkeyorcodepoint
      dsimp only
      rw [if_neg (by simpa [SDL_GetTicks] using hhang), getkey_loop,
        if_pos ⟨hsup, hq⟩]
    · show (update_window_sizes (SDL_GetTicks E s).2).winwidth = _
      rw [update_window_sizes_eq]
      rfl
    · show (update_window_sizes (SDL_GetTicks E s).2).winheight = _
      rw [update_window_sizes_eq]
      rfl
    · exact List.getLast?_concat _
    · show host_resizes ((update_window_sizes (SDL_GetTicks E s).2).calls ++ _) = _
      rw [host_resizes_append, hq1.2.1]
      rfl
  · obtain ⟨r1, r2, _, _, r5⟩ := hquiet (Or.inr ⟨hq, hev⟩) k s1 hret
    exact ⟨r1, r2, (r5 hsup).trans hq⟩

/-- Witness for C5, under the sample header.  With a resize pending, the window
at 1000x700 pixels and a key and a timeout waiting in the queue: while
suppression is active a key request with timeout 5 returns no resize signal and
notifies the host of nothing; once suppression has ended the same request
returns the resize signal with the queue untouched and the flag cleared; and
with no resize pending it returns no resize signal. -/
theorem resize_report_deferred_witness :
    (∀ k s1, sdl_hook_getkeyorcodepoint Keys.sample Env.sample 5
        { World.started with
            resize_queued := 1, suppress_resize := 1, pixw := 1000, pixh := 700,
            events := [some (SDL_Event.SDL_KEYDOWN 0x41 0), none] }
          = some (k, s1) →
      k ≠ Keys.sample.KEY_RESIZE + Keys.sample.KEY_BIAS ∧ host_resizes s1.calls = []) ∧
    (∃ s1, sdl_hook_getkeyorcodepoint Keys.sample Env.sample 5
        { World.started with
            resize_queued := 1, pixw := 1000, pixh := 700,
            events := [some (SDL_Event.SDL_KEYDOWN 0x41 0), none] }
          = some (Keys.sample.KEY_RESIZE + Keys.sample.KEY_BIAS, s1) ∧
      s1.events = [some (SDL_Event.SDL_KEYDOWN 0x41 0), none] ∧ s1.resize_queued = 0 ∧
      s1.winwidth = 125 ∧ s1.winheight = 50) ∧
    (∀ k s1, sdl_hook_getkeyorcodepoint Keys.sample Env.sample 5
        { World.started with events := [some (SDL_Event.SDL_KEYDOWN 0x41 0), none] }
          = some (k, s1) →
      k ≠ Keys.sample.KEY_RESIZE + Keys.sample.KEY_BIAS ∧ host_resizes s1.calls = [] ∧
      s1.resize_queued = 0) := by
  have hk : ∀ sym mod : Nat,
      some (SDL_Event.SDL_KEYDOWN sym mod) ∈
        ([some (SDL_Event.SDL_KEYDOWN 0x41 0), none] : List (Option SDL_Event)) →
      keydown_code Keys.sample sym mod ≠ Keys.sample.KEY_RESIZE + Keys.sample.KEY_BIAS := by
    intro sym mod h
    simp only [List.mem_cons, Option.some.injEq, SDL_Event.SDL_KEYDOWN.injEq,
      List.mem_singleton, List.not_mem_nil, or_false] at h
    rcases h with ⟨rfl, rfl⟩ | h
    · decide
    · exact Option.noConfusion h
  refine ⟨?_, ?_, ?_⟩
  · intro k s1 hret
    have h := (resize_report_deferred Keys.sample Env.sample 5
      { World.started with
          resize_queued := 1, suppress_resize := 1, pixw := 1000, pixh := 700,
          events := [some (SDL_Event.SDL_KEYDOWN 0x41 0), none] }
      (by decide) (by decide) hk).1 (by decide) k s1 hret
    exact ⟨h.1, h.2.1⟩
  · obtain ⟨s1, h1, h2, h3, h4, h5, _⟩ := (resize_report_deferred Keys.sample Env.sample 5
      { World.started with
          resize_queued := 1, pixw := 1000, pixh := 700,
          events := [some (SDL_Event.SDL_KEYDOWN 0x41 0), none] }
      (by decide) (by decide) hk).2.1 rfl rfl (by decide)
    exact ⟨s1, h1, h2, h3, h4.trans (by decide), h5.trans (by decide)⟩
  · intro k s1 hret
    exact (resize_report_deferred Keys.sample Env.sample 5
      { World.started with events := [some (SDL_Event.SDL_KEYDOWN 0x41 0), none] }
      (by decide) (by decide) hk).2.2 rfl rfl (by decide) k s1 hret

/-- A run under the sample header.  During a delay of 10 ms two reports of a new
window size arrive (800x600, then 1000x700), then a key: the delay notifies the
host of no size and ends with the resize pending.  The key request that
follows returns the resize signal with the one notification of 50 rows and 125
columns, and the request after that returns the silence signal and notifies the
host of nothing more. -/
theorem resize_batch_run :
    ((sdl_hook_delay Keys.sample Env.sample 100 10
        { World.started with
            events := [some (SDL_Event.SDL_WINDOWEVENT SDL_WINDOWEVENT_RESIZED 800 600),
                       some (SDL_Event.SDL_WINDOWEVENT SDL_WINDOWEVENT_SIZE_CHANGED 1000 700),
                       some (SDL_Event.SDL_KEYDOWN 0x41 0), none, none, none] }).map
        fun s => (s.resize_queued, s.suppress_resize, host_resizes s.calls))
      = some (1, 0, []) ∧
    (((sdl_hook_delay Keys.sample Env.sample 100 10
        { World.started with
            events := [some (SDL_Event.SDL_WINDOWEVENT SDL_WINDOWEVENT_RESIZED 800 600),
                       some (SDL_Event.SDL_WINDOWEVENT SDL_WINDOWEVENT_SIZE_CHANGED 1000 700),
                       some (SDL_Event.SDL_KEYDOWN 0x41 0), none, none, none] }).bind
        fun s => sdl_hook_getkeyorcodepoint Keys.sample Env.sample 5 s).map
        fun r => (r.1, r.2.resize_queued, host_resizes r.2.calls))
      = some (Keys.sample.KEY_RESIZE + Keys.sample.KEY_BIAS, 0, [(50, 125)]) ∧
    ((((sdl_hook_delay Keys.sample Env.sample 100 10
        { World.started with
            events := [some (SDL_Event.SDL_WINDOWEVENT SDL_WINDOWEVENT_RESIZED 800 600),
                       some (SDL_Event.SDL_WINDOWEVENT SDL_WINDOWEVENT_SIZE_CHANGED 1000 700),
                       some (SDL_Event.SDL_KEYDOWN 0x41 0), none, none, none] }).bind
        fun s => sdl_hook_getkeyorcodepoint Keys.sample Env.sample 5 s).bind
        fun r => sdl_hook_getkeyorcodepoint Keys.sample Env.sample 5 r.2).map
        fun r => (r.1, r.2.resize_queued, host_resizes r.2.calls))
      = some (Keys.sample.KEY_SILENCE + Keys.sample.KEY_BIAS, 0, [(50, 125)]) := by
  decide

/-! ## The timed delay -/

/-- Claim C2, where it fails.  Under a header with a non-zero bias, in a state
with hangup recorded and with the clock below the deadline when the loop
condition reads it: the key request of the iteration returns the hangup signal
`KEY_HANGUP + KEY_BIAS`, the test `k == KEY_HANGUP` of line 140 fails, and the
loop goes on to its next iteration, three clock readings later, instead of
stopping. -/
theorem delay_loop_goes_on_after_hangup (K : Keys) (E : Env) (tick_target : Int)
    (fuel : Nat) (s : World)
    (hb : K.KEY_BIAS ≠ 0) (hh : s.hangup_mode ≠ 0)
    (ht : (((E.ticks s.nticks % 2 ^ 32 : Nat) : Int)) < tick_target) :
    sdl_hook_getkeyorcodepoint K E
        (toInt32 (tick_target - ((E.ticks (s.nticks + 1) % 2 ^ 32 : Nat) : Int)))
        { s with nticks := s.nticks + 2 }
      = some (K.KEY_HANGUP + K.KEY_BIAS, { s with nticks := s.nticks + 3 }) ∧
    K.KEY_HANGUP + K.KEY_BIAS ≠ K.KEY_HANGUP ∧
    delay_loop K E tick_target (fuel + 1) s =
      delay_loop K E tick_target fuel { s with nticks := s.nticks + 3 } := by
  have hk : K.KEY_HANGUP + K.KEY_BIAS ≠ K.KEY_HANGUP := by omega
  have hg := hangup_returns_at_once K E
    (toInt32 (tick_target - ((E.ticks (s.nticks + 1) % 2 ^ 32 : Nat) : Int)))
    { s with nticks := s.nticks + 2 } hh
  refine ⟨hg, hk, ?_⟩
  rw [delay_loop]
  simp only [SDL_GetTicks] at hg ⊢
  rw [if_pos ht, hg]
  simp only [hk, if_false]

/-- Witness for C2, under the sample header and a clock that advances by 1 ms
at each reading.  With hangup recorded, a delay of 10 ms reads the clock 11
times: once on entry, three times in each of three iterations whose key request
returns the hangup signal, and once more to find the deadline reached.  A loop
that stopped at the first hangup signal would read it 4 times.  The same
happens when the quit request arrives during a delay of 30 ms: the loop runs on
to the deadline, 31 readings. -/
theorem delay_loop_goes_on_after_hangup_witness :
    delay_loop Keys.sample Env.sample 10 3 { World.started with hangup_mode := 1, nticks := 1 }
      = delay_loop Keys.sample Env.sample 10 2
          { World.started with hangup_mode := 1, nticks := 4 } ∧
    (sdl_hook_delay Keys.sample Env.sample 100 10 { World.started with hangup_mode := 1 }).map
        (fun s => s.nticks) = some 11 ∧
    (sdl_hook_delay Keys.sample Env.sample 100 30
        { World.started with
            events := [some (SDL_Event.SDL_KEYDOWN 0x41 0), some SDL_Event.SDL_QUIT,
                       some (SDL_Event.SDL_KEYDOWN 0x42 0), none] }).map
        (fun s => (s.nticks, s.hangup_mode, s.suppress_resize)) = some (31, 1, 0) :=
  ⟨(delay_loop_goes_on_after_hangup Keys.sample Env.sample 10 2
      { World.started with hangup_mode := 1, nticks := 1 }
      (by decide) (by decide) (by decide)).2.2,
   by decide, by decide⟩

end Uncursed.SDL
